import Mathlib

/-!
Verification development for the incremental synchronization engine
`sync_r2_to_d1.py` (R2 Parquet → DuckDB → SQLite → SQL dump → D1).

The development embeds, as executable Lean definitions:
  * the row-level semantics of the merge script emitted by `build_merge_sql`
    (staging dedup by minimum rowid, NULL-safe diff UPDATE, `NOT IN` INSERT,
    guarded `NOT IN` DELETE) under SQL three-valued logic;
  * the chunking arithmetic of `create_sql_dumps` for the skus table;
  * the full generated unit-of-work file sequence and its effect on a target
    database state;
  * the sequential apply loop of `import_to_d1`;
  * the line-by-line schema rewriting (DROP-before-CREATE, stripping of
    " IF NOT EXISTS") of `create_sql_dumps`;
  * the textual shape of the generated dump files (transaction bracketing);
  * the `CASE WHEN is_current THEN 1 ELSE 0` transform of
    `download_parquet_to_sqlite`.
-/

namespace SyncR2D1

/-! ## SQL value and row model

A SQL value is `Option Int` (`none` is NULL).  A staged or target row is its
key value plus the list of non-key column values, in declared column order.
The staging table's physical insertion order (SQLite `rowid`) is the list
order; index `i` in the list plays the role of rowid. -/

abbrev Val := Option Int

structure Row where
  key : Val
  rest : List Val
deriving DecidableEq, Inhabited

/-- SQL equality `a = b` used in `WHERE s2.key = s.key` and
`WHERE staging.key = target.key`: TRUE only when both operands are non-NULL
and equal; a NULL operand makes the comparison non-TRUE (NULL). -/
def keyMatches (k : Val) (r : Row) : Bool :=
  match k, r.key with
  | some a, some b => a == b
  | _, _ => false

/-- Non-NULL SQL equality of two values, as a boolean: TRUE exactly when
both are non-NULL and equal (a NULL operand can never compare TRUE). -/
def valEqBool (k v : Val) : Bool :=
  match k, v with
  | some a, some b => a == b
  | _, _ => false

/-- SQL `k IN S` under three-valued logic (SQLite semantics):
TRUE on a non-NULL match; FALSE on an empty list; NULL (`none`) when `k` is
NULL or the list contains a NULL and there is no match; FALSE otherwise. -/
def sqlIn (k : Val) (s : List Val) : Option Bool :=
  if s.any (valEqBool k) then
    some true
  else if s.isEmpty then
    some false
  else if k.isNone || s.contains none then
    none
  else
    some false

/-- SQL `k NOT IN S`: three-valued negation of `sqlIn`. -/
def sqlNotIn (k : Val) (s : List Val) : Option Bool :=
  (sqlIn k s).map (fun b => !b)

/-! ### Dedup step

```
CREATE TABLE staging_dedup AS
SELECT s.* FROM staging AS s
WHERE s.rowid = (SELECT MIN(rowid) FROM staging AS s2 WHERE s2.key = s.key);
```
`MIN(rowid)` over the rows matching `s.key` is the earliest insertion index of
that key; when `s.key` is NULL the subquery is empty, `MIN` is NULL, and the
NULL comparison excludes the row. -/

/-- First index of a row satisfying `p` (the `MIN(rowid)` of the matching
rows, since list order is rowid order). -/
def firstIdx (p : Row → Bool) : List Row → Option Nat
  | [] => none
  | r :: l => if p r then some 0 else (firstIdx p l).map (· + 1)

/-- Rows paired with their rowid, starting at `n`. -/
def enumF (n : Nat) : List Row → List (Nat × Row)
  | [] => []
  | r :: l => (n, r) :: enumF (n + 1) l

/-- The dedup step: keep exactly the rows whose rowid equals the minimum
rowid among rows sharing their key (rows with a NULL key are dropped, since
the scalar subquery is empty for them). -/
def dedup (staging : List Row) : List Row :=
  ((enumF 0 staging).filter
    (fun q => decide (firstIdx (keyMatches q.2.key) staging = some q.1))).map Prod.snd

/-! ### Update step

```
UPDATE target SET c = (SELECT c FROM staging WHERE staging.key = target.key), ...
WHERE EXISTS (SELECT 1 FROM staging WHERE staging.key = target.key
  AND (target.c1 IS NOT (SELECT c1 FROM staging WHERE staging.key = target.key) OR ...));
```
Each scalar subquery returns the first staging row matching the target key
(or NULL when there is none); `IS NOT` is SQLite's NULL-safe inequality, so
it is always TRUE or FALSE, including across NULL transitions. -/

/-- Scalar subquery `(SELECT c_j FROM staging WHERE staging.key = k)`:
the j-th non-key value of the first staging row matching `k`, or NULL. -/
def scalarSelect (staging : List Row) (k : Val) (j : Nat) : Val :=
  match staging.find? (keyMatches k) with
  | none => none
  | some s => s.rest.getD j none

/-- The `OR` of the per-column `IS NOT` diff predicates over the `n` non-key
columns (an empty disjunction when `n = 0`, matching the empty `update_sql`
emitted when there are no non-key columns). -/
def rowChanged (n : Nat) (staging : List Row) (t : Row) : Bool :=
  (List.range n).any (fun j => decide (t.rest.getD j none ≠ scalarSelect staging t.key j))

/-- Effect of the UPDATE statement on one target row. -/
def updateRow (n : Nat) (staging : List Row) (t : Row) : Row :=
  if (staging.find? (keyMatches t.key)).isSome && rowChanged n staging t then
    { key := t.key, rest := (List.range n).map (scalarSelect staging t.key) }
  else t

/-- The UPDATE step over the whole target table (`n` non-key columns). -/
def updateStep (n : Nat) (staging target : List Row) : List Row :=
  target.map (updateRow n staging)

/-! ### Insert and delete steps -/

/-- `INSERT INTO target SELECT * FROM staging WHERE key NOT IN (SELECT key FROM target);`
A staged row is appended when its `NOT IN` predicate evaluates to TRUE. -/
def insertStep (staging target : List Row) : List Row :=
  target ++ staging.filter
    (fun s => decide (sqlNotIn s.key (target.map Row.key) = some true))

/-- `DELETE FROM target WHERE (SELECT COUNT(*) FROM staging) > 0
      AND key NOT IN (SELECT key FROM staging);`
A target row is removed when the guard holds and its `NOT IN` predicate
evaluates to TRUE; rows whose predicate is FALSE or NULL remain. -/
def deleteStep (staging target : List Row) : List Row :=
  if staging.length > 0 then
    target.filter (fun t => decide (sqlNotIn t.key (staging.map Row.key) ≠ some true))
  else target

/-- The whole merge script emitted by `build_merge_sql`, in statement order:
dedup the staging table, then UPDATE, then INSERT, then the (no-op) warning
SELECT, then the guarded DELETE.  The update, insert and delete statements
all read the deduplicated staging table. -/
def mergeScript (n : Nat) (staging target : List Row) : List Row :=
  let st := dedup staging
  deleteStep st (insertStep st (updateStep n st target))

/-! ## Chunked dump writer (`create_sql_dumps`, skus table)

`SKU_CHUNK_SIZE = 500_000`; the chunk loop iterates over
`range(0, sku_count, SKU_CHUNK_SIZE)` (which has `(R + C - 1) // C` steps)
and dumps `SELECT * FROM skus LIMIT C OFFSET i*C` per step. -/

def skuChunkSize : Nat := 500000

/-- `(R + C - 1) // C`: the chunk count `num_chunks` computed by
`create_sql_dumps`, which also equals `len(range(0, R, C))`. -/
def numChunks (r c : Nat) : Nat := (r + c - 1) / c

/-- The row slices of the chunk files: chunk `i` holds
`LIMIT c OFFSET i*c` of the table's rows in table order. -/
def chunkSlices (c : Nat) (rows : List Row) : List (List Row) :=
  (List.range (numChunks rows.length c)).map (fun i => (rows.drop (i * c)).take c)

/-- Names of the SKU-related dump files, in production (= import) order:
one setup file, the chunk files `dump_skus_0 .. dump_skus_(k-1)`, one merge
file. -/
def skuFileNames (r : Nat) : List String :=
  ["dump_skus_setup.sql"]
    ++ (List.range (numChunks r skuChunkSize)).map
        (fun i => "dump_skus_" ++ toString i ++ ".sql")
    ++ ["dump_skus_merge.sql"]

/-! ## The full generated file sequence applied to a target database

The target database holds the three tables.  `dump_schema.sql` drops and
recreates every table (and index), so after it runs each target table is
empty.  `dump_groups.sql` / `dump_products.sql` stage the full snapshot of
their table and run the merge script; the skus pipeline stages the
concatenation of the chunk slices (`dump_skus_setup.sql` + chunk files) and
then runs the merge script (`dump_skus_merge.sql`).  All staging tables are
dropped by the end of their file, so the resulting state is just the three
tables.  `nG nP nS` are the tables' non-key column counts. -/

structure DB where
  groups : List Row
  products : List Row
  skus : List Row
deriving DecidableEq, Inhabited

def applyFullSequence (nG nP nS : Nat) (snap : DB) (_db : DB) : DB :=
  -- dump_schema.sql: DROP TABLE IF EXISTS + CREATE TABLE for each table
  let afterSchema : DB := { groups := [], products := [], skus := [] }
  -- dump_groups.sql: stage `SELECT * FROM groups` and merge
  let afterGroups : DB :=
    { afterSchema with groups := mergeScript nG snap.groups afterSchema.groups }
  -- dump_products.sql
  let afterProducts : DB :=
    { afterGroups with products := mergeScript nP snap.products afterGroups.products }
  -- dump_skus_setup.sql + dump_skus_i.sql: staging_skus accumulates the slices
  let skuStaging : List Row := (chunkSlices skuChunkSize snap.skus).flatten
  -- dump_skus_merge.sql
  { afterProducts with skus := mergeScript nS skuStaging afterProducts.skus }

/-! ## Apply sequencer (`import_to_d1`)

One `npx wrangler d1 execute … --file=<dump>` invocation per file, in list
order; on the first non-zero return code the loop logs the captured stderr
and stdout and calls `sys.exit(1)`. -/

structure ExecResult where
  returncode : Int
  stdout : String
  stderr : String
deriving DecidableEq, Inhabited

inductive ImportOutcome where
  | ok : ImportOutcome
  | failed (file : String) (stderr : String) (stdout : String) (exitCode : Int) : ImportOutcome
deriving DecidableEq

/-- The import loop: returns the list of files actually invoked (in order)
together with the outcome of the run. -/
def importToD1 (run : String → ExecResult) : List String → List String × ImportOutcome
  | [] => ([], .ok)
  | f :: rest =>
    let r := run f
    if r.returncode ≠ 0 then
      ([f], .failed f r.stderr r.stdout 1)
    else
      let next := importToD1 run rest
      (f :: next.1, next.2)

/-! ## Schema rewriting (`create_sql_dumps`, schema dump)

The `.schema` output is processed line by line: every occurrence of
`" IF NOT EXISTS"` is removed (`str.replace`), and a line starting with
`CREATE TABLE ` / `CREATE UNIQUE INDEX ` / `CREATE INDEX ` is preceded by a
`DROP TABLE IF EXISTS <name>;` / `DROP INDEX IF EXISTS <name>;` line, the
name being extracted by the regexes
`CREATE TABLE\s+"?(\w+)"?\s*\(`, `CREATE (UNIQUE )?INDEX\s+"?(\w+)"?\s`.
Lines are modelled as `List Char`. -/

/-- `hasPre p l`: `p` is an initial segment of `l` (`str.startswith`). -/
def hasPre : List Char → List Char → Bool
  | [], _ => true
  | _ :: _, [] => false
  | p :: ps, c :: cs => p == c && hasPre ps cs

/-- `occursIn p l`: `p` occurs as a contiguous substring of `l`. -/
def occursIn (p : List Char) : List Char → Bool
  | [] => p.isEmpty
  | c :: cs => hasPre p (c :: cs) || occursIn p cs

/-- The stripped qualifier, as characters. -/
def ineChars : List Char := " IF NOT EXISTS".toList

/-- Fuel-driven scan for `stripINE`; every step consumes at least one
character, so fuel `l.length` always suffices and the `0` case is never hit
on well-fuelled calls. -/
def stripINEAux : Nat → List Char → List Char
  | 0, l => l
  | _ + 1, [] => []
  | fuel + 1, c :: cs =>
    if hasPre ineChars (c :: cs) then stripINEAux fuel ((c :: cs).drop ineChars.length)
    else c :: stripINEAux fuel cs

/-- `line.replace(" IF NOT EXISTS", "")`: remove every occurrence of the
qualifier, scanning left to right and continuing after each removal. -/
def stripINE (l : List Char) : List Char :=
  stripINEAux l.length l

/-- `\w` of the Python regex: ASCII letters, digits and underscore. -/
def wordChar (c : Char) : Bool := c.isAlphanum || c == '_'

/-- Consume one optional double quote (the `"?` of the regexes). -/
def afterOptQuote : List Char → List Char
  | '"' :: cs => cs
  | l => l

/-- The declared-name extraction of the regexes, anchored after the
`CREATE …` keyword: `\s+`, an optional quote, the `\w+` name, an optional
quote, then `(` possibly after whitespace (tables) or a whitespace character
(indexes).  On the line shapes produced by `.schema` the regex matches
exactly like this anchored parse. -/
def extractName (rest : List Char) (needParen : Bool) : Option (List Char) :=
  if (rest.takeWhile Char.isWhitespace).isEmpty then none
  else
    let r1 := afterOptQuote (rest.dropWhile Char.isWhitespace)
    let name := r1.takeWhile wordChar
    if name.isEmpty then none
    else
      let r2 := afterOptQuote (r1.dropWhile wordChar)
      if needParen then
        match r2.dropWhile Char.isWhitespace with
        | '(' :: _ => some name
        | _ => none
      else
        match r2 with
        | c :: _ => if c.isWhitespace then some name else none
        | [] => none

def ctKw : List Char := "CREATE TABLE ".toList
def cuiKw : List Char := "CREATE UNIQUE INDEX ".toList
def ciKw : List Char := "CREATE INDEX ".toList

def dropTableFor (name : List Char) : List Char :=
  "DROP TABLE IF EXISTS ".toList ++ name ++ [';']

def dropIndexFor (name : List Char) : List Char :=
  "DROP INDEX IF EXISTS ".toList ++ name ++ [';']

/-- Does the (cleaned) line start with one of the three CREATE prefixes? -/
def startsCreate (l : List Char) : Bool :=
  hasPre ctKw l || hasPre cuiKw l || hasPre ciKw l

/-- The DROP line that must precede a CREATE line, when the name extraction
succeeds (`"CREATE TABLE"` is 12 characters, `"CREATE UNIQUE INDEX"` 19,
`"CREATE INDEX"` 12; the regex consumes `\s+` right after the keyword). -/
def dropFor (l : List Char) : Option (List Char) :=
  if hasPre ctKw l then (extractName (l.drop 12) true).map dropTableFor
  else if hasPre cuiKw l then (extractName (l.drop 19) false).map dropIndexFor
  else if hasPre ciKw l then (extractName (l.drop 12) false).map dropIndexFor
  else none

/-- Rewrite one `.schema` line into its output lines: clean it, and prepend
the DROP line when it is a CREATE statement whose name is extracted. -/
def rewriteLine (line : List Char) : List (List Char) :=
  let clean := stripINE line
  if hasPre ctKw clean then
    match extractName (clean.drop 12) true with
    | some n => [dropTableFor n, clean]
    | none => [clean]
  else if hasPre cuiKw clean then
    match extractName (clean.drop 19) false with
    | some n => [dropIndexFor n, clean]
    | none => [clean]
  else if hasPre ciKw clean then
    match extractName (clean.drop 12) false with
    | some n => [dropIndexFor n, clean]
    | none => [clean]
  else [clean]

/-- The whole schema rewriting loop over the `.schema` lines. -/
def rewriteSchema (lines : List (List Char)) : List (List Char) :=
  lines.flatMap rewriteLine

/-! ## Textual shape of the generated dump files

`build_merge_sql` and `create_sql_dumps` assemble the dump files by joining
lines with `"\n"`; the models below list exactly the lines of the joined
text (after the `.strip()` applied to the merge SQL, which removes its
trailing blank lines). -/

/-- Python's `sep.join` where the separator is a newline followed by
`contPre`, with a per-element suffix `suf` before each separator, rendered
as a list of lines: `firstPre a₁ suf / contPre a₂ suf / … / contPre aₘ`. -/
def joinLines (firstPre contPre suf : String) : List String → List String
  | [] => []
  | [a] => [firstPre ++ a]
  | a :: rest => (firstPre ++ a ++ suf) :: joinLines contPre contPre suf rest

/-- The lines of the string returned by `build_merge_sql(table, key, columns)`
(after `.strip()`). -/
def buildMergeSqlLines (tableName keyColumn : String) (columns : List String) :
    List String :=
  let s := "staging_" ++ tableName
  let d := s ++ "_dedup"
  let nonKey := columns.filter (fun c => c != keyColumn)
  let assign := fun (c : String) =>
    c ++ " = (SELECT " ++ c ++ " FROM " ++ s ++ " WHERE " ++ s ++ "." ++ keyColumn
      ++ " = " ++ tableName ++ "." ++ keyColumn ++ ")"
  let pred := fun (c : String) =>
    tableName ++ "." ++ c ++ " IS NOT (SELECT " ++ c ++ " FROM " ++ s ++ " WHERE "
      ++ s ++ "." ++ keyColumn ++ " = " ++ tableName ++ "." ++ keyColumn ++ ")"
  let dedupeLines : List String :=
    ["-- Dedupe staging rows by key (keep first rowid)",
     "DROP TABLE IF EXISTS " ++ d ++ ";",
     "CREATE TABLE " ++ d ++ " AS",
     "SELECT s.*",
     "FROM " ++ s ++ " AS s",
     "WHERE s.rowid = (",
     "  SELECT MIN(rowid)",
     "  FROM " ++ s ++ " AS s2",
     "  WHERE s2." ++ keyColumn ++ " = s." ++ keyColumn,
     ");",
     "DROP TABLE " ++ s ++ ";",
     "ALTER TABLE " ++ d ++ " RENAME TO " ++ s ++ ";"]
  let updateLines : List String :=
    if nonKey.isEmpty then []
    else
      ["-- Merge changed rows", "UPDATE " ++ tableName]
        ++ joinLines "SET " "    " "," (nonKey.map assign)
        ++ ["WHERE EXISTS (",
            "  SELECT 1",
            "  FROM " ++ s,
            "  WHERE " ++ s ++ "." ++ keyColumn ++ " = " ++ tableName ++ "." ++ keyColumn,
            "    AND ("]
        ++ joinLines "      " "      " " OR" (nonKey.map pred)
        ++ ["    )", ");"]
  let insertLines : List String :=
    ["-- Insert new rows",
     "INSERT INTO " ++ tableName,
     "SELECT * FROM " ++ s,
     "WHERE " ++ keyColumn ++ " NOT IN (SELECT " ++ keyColumn ++ " FROM "
       ++ tableName ++ ");"]
  let warningLines : List String :=
    ["-- Warn if staging is empty to avoid destructive deletes",
     "SELECT \x27sync_r2_to_d1.py: WARNING empty staging for " ++ tableName
       ++ ", skipping deletes\x27",
     "WHERE (SELECT COUNT(*) FROM " ++ s ++ ") = 0;"]
  let deleteLines : List String :=
    ["-- Delete removed rows (guarded on non-empty staging)",
     "DELETE FROM " ++ tableName,
     "WHERE (SELECT COUNT(*) FROM " ++ s ++ ") > 0",
     "  AND " ++ keyColumn ++ " NOT IN (SELECT " ++ keyColumn ++ " FROM " ++ s ++ ");"]
  dedupeLines ++ updateLines ++ insertLines ++ [""] ++ warningLines ++ deleteLines

/-- The lines of `dump_groups.sql` / `dump_products.sql` as written by
`write_incremental_dump` (`insertPayload` is the `.mode insert` dump of
`SELECT * FROM table`, already stripped). -/
def incrementalDumpFileLines (tableName keyColumn : String) (columns : List String)
    (insertPayload : List String) : List String :=
  ["-- Incremental sync for " ++ tableName,
   "PRAGMA foreign_keys=OFF;",
   "BEGIN;",
   "DROP TABLE IF EXISTS staging_" ++ tableName ++ ";",
   "CREATE TABLE staging_" ++ tableName ++ " AS SELECT * FROM " ++ tableName
     ++ " WHERE 0;"]
    ++ insertPayload
    ++ buildMergeSqlLines tableName keyColumn columns
    ++ ["DROP TABLE IF EXISTS staging_" ++ tableName ++ ";", "COMMIT;", ""]

/-- The lines of `dump_skus_setup.sql`. -/
def skusSetupFileLines : List String :=
  ["-- Prepare staging table for SKUs",
   "PRAGMA foreign_keys=OFF;",
   "DROP TABLE IF EXISTS staging_skus;",
   "CREATE TABLE staging_skus AS SELECT * FROM skus WHERE 0;",
   ""]

/-- The lines of a chunk file `dump_skus_<i>.sql`. -/
def skusChunkFileLines (i : Nat) (insertPayload : List String) : List String :=
  ["-- Insert SKU chunk " ++ toString i ++ " into staging", "BEGIN;"]
    ++ insertPayload ++ ["COMMIT;", ""]

/-- The lines of `dump_skus_merge.sql`. -/
def skusMergeFileLines (columns : List String) : List String :=
  ["-- Merge staging SKUs into main table", "BEGIN;"]
    ++ buildMergeSqlLines "skus" "sku_id" columns
    ++ ["DROP TABLE IF EXISTS staging_skus;", "COMMIT;", ""]

/-- The lines strictly between the first `BEGIN;` and the following
`COMMIT;` of a file. -/
def betweenBeginCommit (file : List String) : List String :=
  (((file.dropWhile (fun l => l != "BEGIN;")).drop 1).takeWhile
    (fun l => l != "COMMIT;"))

/-! ## Snapshot loader transform for `groups`
(`download_parquet_to_sqlite`): `SELECT group_id, name, abbr,
CASE WHEN is_current THEN 1 ELSE 0 END AS is_current FROM '<parquet>'`.
The source `is_current` is a (nullable) boolean. -/

structure SourceGroupRow where
  group_id : Option Int
  name : Option String
  abbr : Option String
  is_current : Option Bool
deriving DecidableEq

structure GroupRow where
  group_id : Option Int
  name : Option String
  abbr : Option String
  is_current : Int
deriving DecidableEq

/-- `CASE WHEN is_current THEN 1 ELSE 0 END`: the THEN branch is taken
exactly when the condition is TRUE; FALSE and NULL take the ELSE branch. -/
def loadGroupRow (r : SourceGroupRow) : GroupRow :=
  { group_id := r.group_id, name := r.name, abbr := r.abbr,
    is_current := if r.is_current = some true then 1 else 0 }

/-- The groups table produced by the loader. -/
def loadGroups (src : List SourceGroupRow) : List GroupRow :=
  src.map loadGroupRow

/-! # Helper lemmas -/

/-! ## `firstIdx`, `enumF` and `dedup` -/

theorem keyMatches_none (r : Row) : keyMatches none r = false := rfl

theorem keyMatches_eq_true {k : Val} {r : Row} (h : keyMatches k r = true) :
    r.key = k := by
  cases k <;> cases hr : r.key <;> simp_all [keyMatches]

theorem keyMatches_self {k : Int} {r : Row} (h : r.key = some k) :
    keyMatches (some k) r = true := by
  unfold keyMatches
  rw [h]
  simp

theorem firstIdx_eq_none_iff (p : Row → Bool) (l : List Row) :
    firstIdx p l = none ↔ ∀ r ∈ l, p r = false := by
  induction l with
  | nil => simp [firstIdx]
  | cons a l ih =>
    by_cases ha : p a
    · simp [firstIdx, ha]
    · simp only [firstIdx, ha, if_false, List.mem_cons]
      constructor
      · intro h r hr
        rcases hr with rfl | hr
        · simpa using ha
        · exact (ih.mp (by simpa using h)) r hr
      · intro h
        have : firstIdx p l = none := ih.mpr (fun r hr => h r (Or.inr hr))
        simp [this]

theorem firstIdx_eq_some {p : Row → Bool} {l : List Row} {j : Nat}
    (h : firstIdx p l = some j) : ∃ r, l.get? j = some r ∧ p r = true := by
  induction l generalizing j with
  | nil => simp [firstIdx] at h
  | cons a l ih =>
    by_cases ha : p a
    · simp only [firstIdx, ha, if_true, Option.some.injEq] at h
      obtain rfl : j = 0 := h.symm
      exact ⟨a, rfl, ha⟩
    · simp only [firstIdx, ha, if_false] at h
      rcases Option.map_eq_some'.mp h with ⟨i, hf, rfl⟩
      obtain ⟨r, hr, hp⟩ := ih hf
      exact ⟨r, by simpa using hr, hp⟩

theorem find?_eq_firstIdx_bind (p : Row → Bool) (l : List Row) :
    l.find? p = (firstIdx p l).bind (fun j => l.get? j) := by
  induction l with
  | nil => simp [firstIdx]
  | cons a l ih =>
    by_cases ha : p a
    · simp [firstIdx, ha, List.find?_cons_of_pos]
    · rw [List.find?_cons_of_neg _ (by simpa using ha)]
      simp only [firstIdx, ha, if_false]
      cases hf : firstIdx p l with
      | none => simpa [hf] using ih
      | some i => simpa [hf] using ih

theorem enumF_mem_snd {n : Nat} {l : List Row} {q : Nat × Row}
    (h : q ∈ enumF n l) : q.2 ∈ l := by
  induction l generalizing n with
  | nil => simp [enumF] at h
  | cons a l ih =>
    simp only [enumF, List.mem_cons] at h
    rcases h with rfl | h
    · simp
    · exact List.mem_cons_of_mem _ (ih h)

theorem enumF_map_fst (n : Nat) (l : List Row) :
    (enumF n l).map Prod.fst = List.range' n l.length := by
  induction l generalizing n with
  | nil => simp [enumF]
  | cons a l ih => simp [enumF, List.range'_succ, ih]

theorem enumF_filter_fst_lt (l : List Row) (n j : Nat) (p : Row → Bool)
    (h : j < n) :
    (enumF n l).filter (fun q => p q.2 && decide (j = q.1)) = [] := by
  induction l generalizing n with
  | nil => simp [enumF]
  | cons a l ih =>
    simp only [enumF, List.filter_cons]
    have : decide (j = n) = false := by simp [Nat.ne_of_lt h]
    rw [this]
    simp only [Bool.and_false, if_false]
    exact ih (n + 1) (Nat.lt_succ_of_lt h)

theorem enumF_filter_fst_eq (l : List Row) (n j : Nat) (p : Row → Bool)
    (h : n ≤ j) :
    (enumF n l).filter (fun q => p q.2 && decide (j = q.1))
      = match l.get? (j - n) with
        | some a => if p a then [(j, a)] else []
        | none => [] := by
  induction l generalizing n with
  | nil => simp [enumF]
  | cons a l ih =>
    by_cases hj : j = n
    · subst hj
      have htail := enumF_filter_fst_lt l (j + 1) j p (Nat.lt_succ_self j)
      cases hp : p a with
      | true => simp [enumF, List.filter_cons, hp, htail]
      | false => simp [enumF, List.filter_cons, hp, htail]
    · have hn : n + 1 ≤ j := by omega
      have hd : decide (j = n) = false := by simp [hj]
      have hsub : j - n = (j - (n + 1)) + 1 := by omega
      simp only [enumF, List.filter_cons, hd, Bool.and_false, Bool.false_eq_true,
        if_false, hsub, List.get?_cons_succ]
      exact ih (n + 1) hn

/-- Core characterization of the dedup step: for every non-NULL key value,
the deduplicated staging table retains exactly the first staged row carrying
that key (and nothing else with that key). -/
theorem dedup_filter_eq (staging : List Row) (k : Int) :
    (dedup staging).filter (keyMatches (some k))
      = (staging.find? (keyMatches (some k))).toList := by
  unfold dedup
  rw [List.filter_map, List.filter_filter]
  have hcongr : ∀ q ∈ enumF 0 staging,
      ((keyMatches (some k) ∘ Prod.snd) q
          && decide (firstIdx (keyMatches q.2.key) staging = some q.1))
        = (keyMatches (some k) q.2
          && decide (firstIdx (keyMatches (some k)) staging = some q.1)) := by
    intro q _
    simp only [Function.comp_apply]
    cases hq : keyMatches (some k) q.2 with
    | false => simp
    | true =>
      have hkey : q.2.key = some k := keyMatches_eq_true hq
      rw [hkey]
  rw [List.filter_congr hcongr, find?_eq_firstIdx_bind]
  cases hf : firstIdx (keyMatches (some k)) staging with
  | none => simp
  | some j =>
    have hpt : ∀ q ∈ enumF 0 staging,
        (keyMatches (some k) q.2 && decide (some j = some q.1))
          = (keyMatches (some k) q.2 && decide (j = q.1)) := by
      intro q _
      by_cases h : j = q.1
      · subst h; simp
      · simp [h]
    rw [List.filter_congr hpt,
      enumF_filter_fst_eq staging 0 j (keyMatches (some k)) (Nat.zero_le j)]
    obtain ⟨r, hr, hpr⟩ := firstIdx_eq_some hf
    simp only [Nat.sub_zero]
    rw [hr]
    simp [hpr, hr, ← List.get?_eq_getElem?]

/-- Every row retained by dedup is one of the staged rows. -/
theorem dedup_subset {staging : List Row} {r : Row} (h : r ∈ dedup staging) :
    r ∈ staging := by
  unfold dedup at h
  obtain ⟨q, hq, rfl⟩ := List.mem_map.mp h
  exact enumF_mem_snd (List.mem_filter.mp hq).1

/-- Rows with a NULL key never survive dedup (their `MIN(rowid)` subquery is
empty). -/
theorem dedup_key_ne_none {staging : List Row} {r : Row} (h : r ∈ dedup staging) :
    r.key ≠ none := by
  intro hk
  unfold dedup at h
  obtain ⟨q, hq, hsnd⟩ := List.mem_map.mp h
  have hcond := (List.mem_filter.mp hq).2
  rw [hsnd, hk] at hcond
  have : firstIdx (keyMatches none) staging = none :=
    (firstIdx_eq_none_iff _ _).mpr (fun r _ => rfl)
  rw [this] at hcond
  simp at hcond

/-- Dedup leaves at most one row per key: the retained keys are pairwise
distinct. -/
theorem dedup_keys_nodup (staging : List Row) :
    ((dedup staging).map Row.key).Nodup := by
  unfold dedup
  rw [List.map_map]
  have hfst : (((enumF 0 staging).filter
      (fun q => decide (firstIdx (keyMatches q.2.key) staging = some q.1))).map
        Prod.fst).Nodup := by
    have hsub : List.Sublist
        (((enumF 0 staging).filter
          (fun q => decide (firstIdx (keyMatches q.2.key) staging = some q.1))).map
            Prod.fst)
        ((enumF 0 staging).map Prod.fst) :=
      (List.filter_sublist _).map Prod.fst
    rw [enumF_map_fst] at hsub
    exact (List.nodup_range' 0 staging.length).sublist hsub
  refine List.Nodup.map_on ?_ (List.Nodup.of_map Prod.fst hfst)
  intro x hx y hy hxy
  have hxc := (List.mem_filter.mp hx).2
  have hyc := (List.mem_filter.mp hy).2
  simp only [decide_eq_true_eq] at hxc hyc
  have hkey : x.2.key = y.2.key := hxy
  rw [hkey] at hxc
  have hfst_eq : x.1 = y.1 := Option.some_injective _ (hxc.symm.trans hyc)
  exact List.inj_on_of_nodup_map hfst hx hy hfst_eq

/-- A key value occurs in the dedup output iff it occurs in the staging
table (dedup never loses a non-NULL key). -/
theorem mem_dedup_keys {staging : List Row} {k : Int} :
    some k ∈ (dedup staging).map Row.key ↔ some k ∈ staging.map Row.key := by
  constructor
  · intro h
    obtain ⟨r, hr, hk⟩ := List.mem_map.mp h
    exact List.mem_map.mpr ⟨r, dedup_subset hr, hk⟩
  · intro h
    obtain ⟨r, hr, hk⟩ := List.mem_map.mp h
    have hpr : keyMatches (some k) r = true := keyMatches_self hk
    have hfind : staging.find? (keyMatches (some k)) ≠ none := by
      intro hc
      rw [find?_eq_firstIdx_bind] at hc
      cases hf : firstIdx (keyMatches (some k)) staging with
      | none => exact absurd ((firstIdx_eq_none_iff _ _).mp hf r hr) (by simp [hpr])
      | some j =>
        rw [hf] at hc
        obtain ⟨r', hr', _⟩ := firstIdx_eq_some hf
        simp only [Option.some_bind] at hc
        rw [hc] at hr'
        cases hr'
    cases hfs : staging.find? (keyMatches (some k)) with
    | none => exact absurd hfs hfind
    | some s =>
      have hs_mem : s ∈ dedup staging := by
        have := dedup_filter_eq staging k
        rw [hfs] at this
        have : s ∈ (dedup staging).filter (keyMatches (some k)) := by
          rw [this]; simp
        exact List.mem_of_mem_filter this
      have hs_key : s.key = some k := keyMatches_eq_true (List.find?_some hfs)
      exact List.mem_map.mpr ⟨s, hs_mem, hs_key⟩

/-- Dedup of a non-empty staging table with non-NULL keys is non-empty (the
first staged row always survives). -/
theorem dedup_ne_nil {staging : List Row} (hne : staging ≠ [])
    (hkeys : ∀ r ∈ staging, r.key ≠ none) : dedup staging ≠ [] := by
  cases staging with
  | nil => exact absurd rfl hne
  | cons r0 rest =>
    obtain ⟨k, hk⟩ : ∃ k, r0.key = some k := by
      cases h0 : r0.key with
      | none => exact absurd h0 (hkeys r0 (List.mem_cons_self _ _))
      | some k => exact ⟨k, rfl⟩
    have hp : keyMatches r0.key r0 = true := by rw [hk]; exact keyMatches_self hk
    have hfi : firstIdx (keyMatches r0.key) (r0 :: rest) = some 0 := by
      simp [firstIdx, hp]
    have hmem : r0 ∈ dedup (r0 :: rest) := by
      unfold dedup
      refine List.mem_map.mpr ⟨(0, r0), List.mem_filter.mpr ⟨?_, ?_⟩, rfl⟩
      · simp [enumF]
      · simpa using hfi
    intro hcon
    rw [hcon] at hmem
    exact absurd hmem (List.not_mem_nil r0)

/-! ## Merge step lemmas -/

theorem updateRow_key (n : Nat) (staging : List Row) (t : Row) :
    (updateRow n staging t).key = t.key := by
  unfold updateRow
  by_cases h : ((staging.find? (keyMatches t.key)).isSome && rowChanged n staging t) = true
  · rw [if_pos h]
  · rw [if_neg h]

theorem dedup_nil : dedup [] = [] := rfl

theorem updateStep_nil (n : Nat) (target : List Row) :
    updateStep n [] target = target := by
  unfold updateStep updateRow
  simp [List.find?]

theorem insertStep_nil (target : List Row) : insertStep [] target = target := by
  simp [insertStep]

theorem deleteStep_nil (target : List Row) : deleteStep [] target = target := by
  simp [deleteStep]

theorem updateStep_keys (n : Nat) (staging target : List Row) :
    (updateStep n staging target).map Row.key = target.map Row.key := by
  unfold updateStep
  rw [List.map_map]
  exact List.map_congr_left (fun t _ => updateRow_key n staging t)

theorem valEqBool_some {a : Int} {v : Val} :
    valEqBool (some a) v = true ↔ v = some a := by
  cases v with
  | none => simp [valEqBool]
  | some b =>
    constructor
    · intro h
      simp only [valEqBool, beq_iff_eq] at h
      rw [← h]
    · intro h
      injection h with h1
      subst h1
      simp [valEqBool]

/-- `sqlIn` is TRUE as soon as the probed non-NULL key occurs in the list. -/
theorem sqlIn_some_of_mem {a : Int} {keys : List Val} (h : some a ∈ keys) :
    sqlIn (some a) keys = some true := by
  unfold sqlIn
  have hany : keys.any (valEqBool (some a)) = true :=
    List.any_eq_true.mpr ⟨some a, h, valEqBool_some.mpr rfl⟩
  rw [hany]
  simp

/-- `sqlIn` is FALSE for a non-NULL key absent from a NULL-free list. -/
theorem sqlIn_some_not_mem {a : Int} {keys : List Val}
    (hnn : none ∉ keys) (h : some a ∉ keys) :
    sqlIn (some a) keys = some false := by
  unfold sqlIn
  have hany : keys.any (valEqBool (some a)) = false := by
    rw [List.any_eq_false]
    intro v hv
    intro hveq
    exact h ((valEqBool_some.mp hveq) ▸ hv)
  rw [hany]
  cases hk : keys.isEmpty with
  | true =>
    rw [List.isEmpty_iff] at hk
    subst hk
    simp
  | false => simp [hk, hnn]

/-- With a non-empty, NULL-free staging key list, the guarded DELETE keeps
exactly the target rows whose (non-NULL) key occurs among the staging keys. -/
theorem deleteStep_filter {staging target : List Row} (hne : staging ≠ [])
    (hs : ∀ r ∈ staging, r.key ≠ none) (ht : ∀ t ∈ target, t.key ≠ none) :
    deleteStep staging target
      = target.filter (fun t => decide (t.key ∈ staging.map Row.key)) := by
  unfold deleteStep
  rw [if_pos (by cases staging with
    | nil => exact absurd rfl hne
    | cons a l => simp)]
  apply List.filter_congr
  intro t htm
  obtain ⟨a, ha⟩ : ∃ a, t.key = some a := by
    cases h0 : t.key with
    | none => exact absurd h0 (ht t htm)
    | some a => exact ⟨a, rfl⟩
  have hnn : none ∉ staging.map Row.key := by
    intro hc
    obtain ⟨r, hr, hrk⟩ := List.mem_map.mp hc
    exact hs r hr hrk
  rw [ha]
  by_cases hmem : some a ∈ staging.map Row.key
  · simp [sqlNotIn, sqlIn_some_of_mem hmem, hmem]
  · simp [sqlNotIn, sqlIn_some_not_mem hnn hmem, hmem]

/-- Rows of the insert step output come from the target or the staging. -/
theorem insertStep_mem {staging target : List Row} {t : Row}
    (h : t ∈ insertStep staging target) : t ∈ target ∨ t ∈ staging := by
  rcases List.mem_append.mp h with h | h
  · exact Or.inl h
  · exact Or.inr (List.mem_of_mem_filter h)

/-- The merge script with an empty staging table is the identity on the
target table. -/
theorem mergeScript_nil (n : Nat) (target : List Row) :
    mergeScript n [] target = target := by
  simp only [mergeScript, dedup_nil, updateStep_nil, insertStep_nil, deleteStep_nil]

/-! # Claim theorems -/

/-- C1: when the staging table is empty, the merge script leaves the target
unchanged (UPDATE changes no rows, INSERT adds none, the guarded DELETE
removes none, and the row count is preserved); when staging is non-empty
(with the non-NULL-key invariant in force), the final DELETE removes exactly
the rows whose key is absent from the staging table. -/
theorem merge_delete_guard (n : Nat) (staging target : List Row)
    (hs : ∀ r ∈ staging, r.key ≠ none) (ht : ∀ t ∈ target, t.key ≠ none) :
    (updateStep n [] target = target ∧ insertStep [] target = target
      ∧ deleteStep [] target = target ∧ mergeScript n [] target = target
      ∧ (mergeScript n [] target).length = target.length)
    ∧ (staging ≠ [] →
        mergeScript n staging target
          = (insertStep (dedup staging) (updateStep n (dedup staging) target)).filter
              (fun t => decide (t.key ∈ staging.map Row.key))) := by
  refine ⟨⟨updateStep_nil n target, insertStep_nil target, deleteStep_nil target,
    mergeScript_nil n target, by rw [mergeScript_nil]⟩, ?_⟩
  intro hne
  have hstne : dedup staging ≠ [] := dedup_ne_nil hne hs
  have hstk : ∀ r ∈ dedup staging, r.key ≠ none := fun r hr => dedup_key_ne_none hr
  have hXk : ∀ t ∈ insertStep (dedup staging) (updateStep n (dedup staging) target),
      t.key ≠ none := by
    intro t htm
    rcases insertStep_mem htm with hmem | hmem
    · obtain ⟨u, hu, rfl⟩ := List.mem_map.mp hmem
      rw [updateRow_key]
      exact ht u hu
    · exact hstk t hmem
  have hms : mergeScript n staging target
      = deleteStep (dedup staging)
          (insertStep (dedup staging) (updateStep n (dedup staging) target)) := rfl
  rw [hms, deleteStep_filter hstne hstk hXk]
  apply List.filter_congr
  intro t htm
  obtain ⟨a, ha⟩ : ∃ a, t.key = some a := by
    cases h0 : t.key with
    | none => exact absurd h0 (hXk t htm)
    | some a => exact ⟨a, rfl⟩
  rw [ha]
  exact decide_eq_decide.mpr mem_dedup_keys

/-- Witness for C1: the guard and the delete characterization at a concrete
staging/target pair. -/
theorem merge_delete_guard_witness :
    (∀ r ∈ [Row.mk (some 1) [some 10]], r.key ≠ none)
    ∧ (∀ t ∈ [Row.mk (some 1) [some 11], Row.mk (some 2) [some 20]], t.key ≠ none)
    ∧ ((updateStep 1 [] [Row.mk (some 1) [some 11], Row.mk (some 2) [some 20]]
          = [Row.mk (some 1) [some 11], Row.mk (some 2) [some 20]]
        ∧ insertStep [] [Row.mk (some 1) [some 11], Row.mk (some 2) [some 20]]
          = [Row.mk (some 1) [some 11], Row.mk (some 2) [some 20]]
        ∧ deleteStep [] [Row.mk (some 1) [some 11], Row.mk (some 2) [some 20]]
          = [Row.mk (some 1) [some 11], Row.mk (some 2) [some 20]]
        ∧ mergeScript 1 [] [Row.mk (some 1) [some 11], Row.mk (some 2) [some 20]]
          = [Row.mk (some 1) [some 11], Row.mk (some 2) [some 20]]
        ∧ (mergeScript 1 [] [Row.mk (some 1) [some 11], Row.mk (some 2) [some 20]]).length
          = [Row.mk (some 1) [some 11], Row.mk (some 2) [some 20]].length)
      ∧ ([Row.mk (some 1) [some 10]] ≠ ([] : List Row) →
          mergeScript 1 [Row.mk (some 1) [some 10]]
              [Row.mk (some 1) [some 11], Row.mk (some 2) [some 20]]
            = (insertStep (dedup [Row.mk (some 1) [some 10]])
                (updateStep 1 (dedup [Row.mk (some 1) [some 10]])
                  [Row.mk (some 1) [some 11], Row.mk (some 2) [some 20]])).filter
                (fun t => decide (t.key ∈ [Row.mk (some 1) [some 10]].map Row.key)))) :=
  ⟨by decide, by decide, merge_delete_guard 1 _ _ (by decide) (by decide)⟩

/-- C3: on a staging table with non-NULL keys, dedup retains exactly one row
per key: the retained keys are pairwise distinct, every staged key is still
present, and for each key the retained row is precisely the first staged row
carrying it (minimum rowid = earliest insertion index). -/
theorem dedup_first_wins (staging : List Row)
    (h : ∀ r ∈ staging, r.key ≠ none) :
    ((dedup staging).map Row.key).Nodup
    ∧ (∀ r ∈ staging, r.key ∈ (dedup staging).map Row.key)
    ∧ (∀ k : Int, (dedup staging).filter (keyMatches (some k))
        = (staging.find? (keyMatches (some k))).toList)
    ∧ (∀ k : Int, some k ∈ staging.map Row.key →
        ((dedup staging).filter (keyMatches (some k))).length = 1)
    ∧ (∀ r ∈ dedup staging, r ∈ staging) := by
  refine ⟨dedup_keys_nodup staging, ?_, fun k => dedup_filter_eq staging k, ?_,
    fun r hr => dedup_subset hr⟩
  · intro r hr
    obtain ⟨k, hk⟩ : ∃ k, r.key = some k := by
      cases h0 : r.key with
      | none => exact absurd h0 (h r hr)
      | some k => exact ⟨k, rfl⟩
    rw [hk]
    exact mem_dedup_keys.mpr (List.mem_map.mpr ⟨r, hr, hk⟩)
  · intro k hk
    rw [dedup_filter_eq]
    obtain ⟨r, hr, hkk⟩ := List.mem_map.mp hk
    cases hfs : staging.find? (keyMatches (some k)) with
    | none =>
      exact absurd (keyMatches_self hkk)
        (by simpa using List.find?_eq_none.mp hfs r hr)
    | some s => rfl

/-- Witness for C3 on a staging table with a duplicated key. -/
theorem dedup_first_wins_witness :
    (∀ r ∈ [Row.mk (some 1) [some 10], Row.mk (some 2) [some 20],
        Row.mk (some 1) [some 30]], r.key ≠ none)
    ∧ (((dedup [Row.mk (some 1) [some 10], Row.mk (some 2) [some 20],
          Row.mk (some 1) [some 30]]).map Row.key).Nodup
      ∧ (∀ r ∈ [Row.mk (some 1) [some 10], Row.mk (some 2) [some 20],
            Row.mk (some 1) [some 30]],
          r.key ∈ (dedup [Row.mk (some 1) [some 10], Row.mk (some 2) [some 20],
            Row.mk (some 1) [some 30]]).map Row.key)
      ∧ (∀ k : Int,
          (dedup [Row.mk (some 1) [some 10], Row.mk (some 2) [some 20],
              Row.mk (some 1) [some 30]]).filter (keyMatches (some k))
            = ([Row.mk (some 1) [some 10], Row.mk (some 2) [some 20],
                Row.mk (some 1) [some 30]].find? (keyMatches (some k))).toList)
      ∧ (∀ k : Int,
          some k ∈ [Row.mk (some 1) [some 10], Row.mk (some 2) [some 20],
              Row.mk (some 1) [some 30]].map Row.key →
            ((dedup [Row.mk (some 1) [some 10], Row.mk (some 2) [some 20],
                Row.mk (some 1) [some 30]]).filter (keyMatches (some k))).length = 1)
      ∧ (∀ r ∈ dedup [Row.mk (some 1) [some 10], Row.mk (some 2) [some 20],
            Row.mk (some 1) [some 30]],
          r ∈ [Row.mk (some 1) [some 10], Row.mk (some 2) [some 20],
            Row.mk (some 1) [some 30]])) :=
  ⟨by decide, dedup_first_wins _ (by decide)⟩

/-! ## Update characterization (C4 machinery) -/

theorem range_map_getD {s : List Val} {n : Nat} (h : s.length = n) :
    (List.range n).map (fun j => s.getD j none) = s := by
  apply List.ext_getElem
  · simp [h]
  · intro j h1 h2
    rw [List.getElem_map, List.getElem_range, List.getD_eq_getElem s none h2]

theorem rowChanged_iff {n : Nat} {staging : List Row} {t s : Row}
    (hf : staging.find? (keyMatches t.key) = some s)
    (ht : t.rest.length = n) (hsl : s.rest.length = n) :
    rowChanged n staging t = true ↔ t.rest ≠ s.rest := by
  unfold rowChanged
  rw [List.any_eq_true]
  have hscal : ∀ j, scalarSelect staging t.key j = s.rest.getD j none := by
    intro j
    unfold scalarSelect
    rw [hf]
  constructor
  · rintro ⟨j, _, hd⟩ heq
    rw [hscal, heq] at hd
    simp at hd
  · intro hne
    by_contra hc
    apply hne
    apply List.ext_getElem (ht.trans hsl.symm)
    intro j h1 h2
    by_contra hd
    apply hc
    refine ⟨j, List.mem_range.mpr (ht ▸ h1), ?_⟩
    rw [hscal]
    simp only [decide_eq_true_eq]
    rw [List.getD_eq_getElem t.rest none h1, List.getD_eq_getElem s.rest none h2]
    exact hd

/-- C4: the UPDATE touches a target row iff its key has a staged match and
some non-key column differs under NULL-safe comparison.  Unmatched rows and
rows whose non-key columns all agree (NULL agreeing with NULL) are returned
unchanged; a differing row — in particular one differing only by a NULL
transition in a single column — is rewritten to the staged values, an actual
change. -/
theorem update_minimality (n : Nat) (staging : List Row) (t : Row)
    (ht : t.rest.length = n) (hs : ∀ s ∈ staging, s.rest.length = n) :
    (staging.find? (keyMatches t.key) = none → updateRow n staging t = t)
    ∧ (∀ s, staging.find? (keyMatches t.key) = some s →
        ((t.rest = s.rest → updateRow n staging t = t)
          ∧ (t.rest ≠ s.rest →
              updateRow n staging t = Row.mk t.key s.rest ∧ updateRow n staging t ≠ t)
          ∧ (∀ j < n, t.rest.getD j none ≠ s.rest.getD j none →
              updateRow n staging t ≠ t))) := by
  constructor
  · intro hfn
    unfold updateRow
    rw [hfn]
    simp
  · intro s hf
    have hsl : s.rest.length = n := hs s (List.mem_of_find?_eq_some hf)
    have hchanged : rowChanged n staging t = true ↔ t.rest ≠ s.rest :=
      rowChanged_iff hf ht hsl
    have hset : (List.range n).map (scalarSelect staging t.key) = s.rest := by
      have hscal : ∀ j, scalarSelect staging t.key j = s.rest.getD j none := by
        intro j
        unfold scalarSelect
        rw [hf]
      calc (List.range n).map (scalarSelect staging t.key)
        = (List.range n).map (fun j => s.rest.getD j none) :=
          List.map_congr_left (fun j _ => hscal j)
        _ = s.rest := range_map_getD hsl
    refine ⟨?_, ?_, ?_⟩
    · intro heq
      have hrc : rowChanged n staging t = false := by
        cases hrc2 : rowChanged n staging t with
        | false => rfl
        | true => exact absurd heq (hchanged.mp hrc2)
      unfold updateRow
      rw [hrc]
      simp
    · intro hne
      have hrc : rowChanged n staging t = true := hchanged.mpr hne
      have hupd : updateRow n staging t = Row.mk t.key s.rest := by
        unfold updateRow
        rw [hrc, hf]
        simp [hset]
      refine ⟨hupd, ?_⟩
      rw [hupd]
      intro hcon
      apply hne
      have := congrArg Row.rest hcon
      simpa using this.symm
    · intro j hj hd
      have hne : t.rest ≠ s.rest := by
        intro heq
        rw [heq] at hd
        exact hd rfl
      have hrc : rowChanged n staging t = true := hchanged.mpr hne
      have hupd : updateRow n staging t = Row.mk t.key s.rest := by
        unfold updateRow
        rw [hrc, hf]
        simp [hset]
      rw [hupd]
      intro hcon
      apply hne
      have := congrArg Row.rest hcon
      simpa using this.symm

/-- Witness for C4: a staged row matching the target key with a NULL
transition in the only non-key column. -/
theorem update_minimality_witness :
    ((Row.mk (some 1) [none]).rest.length = 1
      ∧ ∀ s ∈ [Row.mk (some 1) [some 5]], s.rest.length = 1)
    ∧ (([Row.mk (some 1) [some 5]].find? (keyMatches (Row.mk (some 1) [none]).key)
          = none → updateRow 1 [Row.mk (some 1) [some 5]] (Row.mk (some 1) [none])
            = Row.mk (some 1) [none])
      ∧ (∀ s, [Row.mk (some 1) [some 5]].find? (keyMatches (Row.mk (some 1) [none]).key)
            = some s →
          (((Row.mk (some 1) [none]).rest = s.rest →
              updateRow 1 [Row.mk (some 1) [some 5]] (Row.mk (some 1) [none])
                = Row.mk (some 1) [none])
            ∧ ((Row.mk (some 1) [none]).rest ≠ s.rest →
                updateRow 1 [Row.mk (some 1) [some 5]] (Row.mk (some 1) [none])
                    = Row.mk (Row.mk (some 1) [none]).key s.rest
                  ∧ updateRow 1 [Row.mk (some 1) [some 5]] (Row.mk (some 1) [none])
                    ≠ Row.mk (some 1) [none])
            ∧ (∀ j < 1, (Row.mk (some 1) [none]).rest.getD j none
                  ≠ s.rest.getD j none →
                updateRow 1 [Row.mk (some 1) [some 5]] (Row.mk (some 1) [none])
                  ≠ Row.mk (some 1) [none])))) :=
  ⟨⟨by decide, by decide⟩,
    update_minimality 1 [Row.mk (some 1) [some 5]] (Row.mk (some 1) [none])
      (by decide) (by decide)⟩

/-! ## Three-valued `NOT IN` degradation (C9 machinery) -/

/-- A `NOT IN` predicate over a list containing NULL never evaluates TRUE. -/
theorem sqlNotIn_ne_true_of_none_mem {k : Val} {keys : List Val}
    (h : none ∈ keys) : sqlNotIn k keys ≠ some true := by
  unfold sqlNotIn sqlIn
  have hne : keys ≠ [] := by
    intro hc
    rw [hc] at h
    exact List.not_mem_nil none h
  have hempty : keys.isEmpty = false := by
    cases hk : keys.isEmpty with
    | false => rfl
    | true => exact absurd (List.isEmpty_iff.mp hk) hne
  have hcont : keys.contains none = true := by simp [h]
  cases hany : keys.any (valEqBool k) with
  | true => simp
  | false =>
    simp [hempty, hcont]
    exact fun _ => h

/-- C9: the INSERT and DELETE steps degrade silently under SQL three-valued
logic when the non-NULL-key precondition is violated: a NULL key anywhere in
the target blocks every insertion, and a NULL key anywhere in the staging
table (as seen by the DELETE statement) blocks every deletion — no error in
either case. -/
theorem not_in_null_degradation :
    (∀ staging target : List Row, (∃ t ∈ target, t.key = none) →
      insertStep staging target = target)
    ∧ (∀ staging target : List Row, (∃ s ∈ staging, s.key = none) →
      deleteStep staging target = target) := by
  constructor
  · intro staging target ⟨t, ht, hkey⟩
    unfold insertStep
    have : staging.filter
        (fun s => decide (sqlNotIn s.key (target.map Row.key) = some true)) = [] := by
      rw [List.filter_eq_nil_iff]
      intro s _
      simp only [decide_eq_true_eq]
      exact sqlNotIn_ne_true_of_none_mem (List.mem_map.mpr ⟨t, ht, hkey⟩)
    rw [this, List.append_nil]
  · intro staging target ⟨s, hs, hkey⟩
    unfold deleteStep
    by_cases hlen : staging.length > 0
    · rw [if_pos hlen]
      rw [List.filter_eq_self.mpr ?_]
      intro t _
      simp only [decide_eq_true_eq]
      exact sqlNotIn_ne_true_of_none_mem (List.mem_map.mpr ⟨s, hs, hkey⟩)
    · rw [if_neg hlen]

/-- Witness for C9: with a NULL-keyed target row nothing is inserted; with a
NULL-keyed staged row nothing is deleted. -/
theorem not_in_null_degradation_witness :
    ((∃ t ∈ [Row.mk none [some 0]], t.key = (none : Val))
      ∧ insertStep [Row.mk (some 5) [some 1]] [Row.mk none [some 0]]
          = [Row.mk none [some 0]])
    ∧ ((∃ s ∈ [Row.mk none [some 1], Row.mk (some 9) [some 2]], s.key = (none : Val))
      ∧ deleteStep [Row.mk none [some 1], Row.mk (some 9) [some 2]]
          [Row.mk (some 7) [some 0]] = [Row.mk (some 7) [some 0]]) :=
  ⟨⟨by decide, not_in_null_degradation.1 _ _ ⟨Row.mk none [some 0], by decide, rfl⟩⟩,
    ⟨by decide, not_in_null_degradation.2 _ _
      ⟨Row.mk none [some 1], by decide, rfl⟩⟩⟩

/-- C2: the full generated file sequence is idempotent: applying it twice to
any target database yields the same end state as applying it once.  This
holds because `dump_schema.sql` drops and recreates every table, so a full
application's end state depends only on the snapshot, never on the prior
target state. -/
theorem apply_sequence_idempotent (nG nP nS : Nat) (snap db : DB) :
    applyFullSequence nG nP nS snap (applyFullSequence nG nP nS snap db)
      = applyFullSequence nG nP nS snap db := rfl

/-! ## Chunk arithmetic (C5 machinery) -/

theorem le_numChunks_mul {r c : Nat} (hc : 0 < c) : r ≤ numChunks r c * c := by
  have h : r ≤ c * (r ⌈/⌉ c) := le_smul_ceilDiv hc
  have he : r ⌈/⌉ c = numChunks r c := rfl
  rw [he, Nat.mul_comm] at h
  exact h

theorem flatten_range_chunks (c k : Nat) :
    ∀ rows : List Row, rows.length ≤ k * c →
      ((List.range k).map (fun i => (rows.drop (i * c)).take c)).flatten = rows := by
  induction k with
  | zero =>
    intro rows h
    have : rows = [] := List.length_eq_zero.mp (Nat.le_zero.mp (by simpa using h))
    subst this
    simp
  | succ k ih =>
    intro rows h
    rw [List.range_succ_eq_map]
    simp only [List.map_cons, List.map_map, List.flatten_cons, Nat.zero_mul,
      List.drop_zero]
    have hcomp : ∀ i ∈ List.range k,
        ((fun i => (rows.drop (i * c)).take c) ∘ Nat.succ) i
          = ((rows.drop c).drop (i * c)).take c := by
      intro i _
      simp only [Function.comp_apply]
      rw [List.drop_drop, Nat.succ_mul, Nat.add_comm]
    rw [List.map_congr_left hcomp]
    have hlen : (rows.drop c).length ≤ k * c := by
      rw [List.length_drop]
      have h' : rows.length ≤ k * c + c := by
        rw [Nat.succ_mul] at h
        exact h
      exact Nat.sub_le_iff_le_add.mpr h'
    rw [ih (rows.drop c) hlen]
    exact List.take_append_drop c rows

/-- C5: the skus table with R rows and chunk size C = 500000 is split into
exactly `(R + C - 1) / C = ⌈R/C⌉` chunk slices, chunk `i` being
`LIMIT C OFFSET i·C`; concatenating the slices recovers the full table (no
row lost or duplicated across chunk boundaries).  One setup file and one
merge file are always produced: 5 SKU files at R = 1,200,000, and zero chunk
files without error at R = 0. -/
theorem chunk_completeness :
    (∀ rows : List Row,
      (chunkSlices skuChunkSize rows).length
          = numChunks rows.length skuChunkSize
      ∧ numChunks rows.length skuChunkSize = rows.length ⌈/⌉ skuChunkSize
      ∧ (∀ i : Nat, (chunkSlices skuChunkSize rows).getD i []
          = (rows.drop (i * skuChunkSize)).take skuChunkSize)
      ∧ (chunkSlices skuChunkSize rows).flatten = rows)
    ∧ skuFileNames 1200000
        = ["dump_skus_setup.sql", "dump_skus_0.sql", "dump_skus_1.sql",
           "dump_skus_2.sql", "dump_skus_merge.sql"]
    ∧ (skuFileNames 1200000).length = 5
    ∧ skuFileNames 0 = ["dump_skus_setup.sql", "dump_skus_merge.sql"]
    ∧ numChunks 0 skuChunkSize = 0 := by
  have hc : 0 < skuChunkSize := by decide
  refine ⟨?_, by decide, by decide, by decide, by decide⟩
  intro rows
  refine ⟨by simp [chunkSlices], rfl, ?_, ?_⟩
  · intro i
    by_cases hi : i < numChunks rows.length skuChunkSize
    · have hlt : i < (chunkSlices skuChunkSize rows).length := by
        simpa [chunkSlices] using hi
      rw [List.getD_eq_getElem _ _ hlt]
      simp [chunkSlices]
    · have hlen : (chunkSlices skuChunkSize rows).length ≤ i := by
        simpa [chunkSlices] using Nat.le_of_not_lt hi
      rw [List.getD_eq_default _ _ hlen]
      have hdrop : rows.drop (i * skuChunkSize) = [] := by
        apply List.drop_eq_nil_of_le
        calc rows.length ≤ numChunks rows.length skuChunkSize * skuChunkSize :=
              le_numChunks_mul hc
          _ ≤ i * skuChunkSize :=
              Nat.mul_le_mul_right _ (Nat.le_of_not_lt hi)
      rw [hdrop, List.take_nil]
  · exact flatten_range_chunks skuChunkSize _ rows (le_numChunks_mul hc)

/-! ## Apply sequencer (C6 machinery) -/

theorem importToD1_append_ok (run : String → ExecResult) (pre rest : List String)
    (hpre : ∀ p ∈ pre, (run p).returncode = 0) :
    importToD1 run (pre ++ rest)
      = (pre ++ (importToD1 run rest).1, (importToD1 run rest).2) := by
  induction pre with
  | nil => simp
  | cons p pre ih =>
    have hp0 : (run p).returncode = 0 := hpre p (List.mem_cons_self _ _)
    have ih' := ih (fun q hq => hpre q (List.mem_cons_of_mem _ hq))
    show importToD1 run (p :: (pre ++ rest)) = _
    simp only [importToD1, hp0]
    simp [ih']

/-- C6: the apply loop runs one remote invocation per file, in list order.
If every file up to and including a failing file `f` behaves as given (`pre`
all succeed, `f` fails), then exactly `pre ++ [f]` are invoked — the files
after `f` are never touched, whatever they are — and the run ends with exit
status 1, surfacing the failing invocation's stderr and stdout.  When every
file succeeds, all files are invoked in order and the outcome is success. -/
theorem import_halts_on_failure (run : String → ExecResult) (pre post : List String)
    (f : String) (hpre : ∀ p ∈ pre, (run p).returncode = 0)
    (hf : (run f).returncode ≠ 0) :
    importToD1 run (pre ++ f :: post)
      = (pre ++ [f], .failed f (run f).stderr (run f).stdout 1)
    ∧ (∀ files : List String, (∀ p ∈ files, (run p).returncode = 0) →
        importToD1 run files = (files, .ok)) := by
  constructor
  · rw [importToD1_append_ok run pre (f :: post) hpre]
    have hfail : importToD1 run (f :: post)
        = ([f], .failed f (run f).stderr (run f).stdout 1) := by
      unfold importToD1
      rw [if_pos hf]
    rw [hfail]
  · intro files hok
    have := importToD1_append_ok run files [] hok
    simpa [importToD1] using this

/-- Witness for C6: file 2 of 5 fails; files 3–5 are never invoked and the
run fails with the captured error text. -/
theorem import_halts_on_failure_witness :
    (∀ p ∈ ["dump_schema.sql"],
      ((fun f => if f = "dump_groups.sql"
          then ExecResult.mk 1 "out" "boom" else ExecResult.mk 0 "" "") p).returncode = 0)
    ∧ ((fun f => if f = "dump_groups.sql"
          then ExecResult.mk 1 "out" "boom" else ExecResult.mk 0 "" "")
        "dump_groups.sql").returncode ≠ 0
    ∧ (importToD1
        (fun f => if f = "dump_groups.sql"
          then ExecResult.mk 1 "out" "boom" else ExecResult.mk 0 "" "")
        (["dump_schema.sql"] ++ "dump_groups.sql"
          :: ["dump_products.sql", "dump_skus_setup.sql", "dump_skus_merge.sql"])
        = (["dump_schema.sql"] ++ ["dump_groups.sql"],
            .failed "dump_groups.sql"
              ((fun f => if f = "dump_groups.sql"
                then ExecResult.mk 1 "out" "boom" else ExecResult.mk 0 "" "")
                  "dump_groups.sql").stderr
              ((fun f => if f = "dump_groups.sql"
                then ExecResult.mk 1 "out" "boom" else ExecResult.mk 0 "" "")
                  "dump_groups.sql").stdout 1)
      ∧ (∀ files : List String,
          (∀ p ∈ files,
            ((fun f => if f = "dump_groups.sql"
              then ExecResult.mk 1 "out" "boom" else ExecResult.mk 0 "" "") p).returncode
                = 0) →
          importToD1
            (fun f => if f = "dump_groups.sql"
              then ExecResult.mk 1 "out" "boom" else ExecResult.mk 0 "" "") files
            = (files, .ok))) :=
  ⟨by decide, by decide,
    import_halts_on_failure _ ["dump_schema.sql"]
      ["dump_products.sql", "dump_skus_setup.sql", "dump_skus_merge.sql"]
      "dump_groups.sql" (by decide) (by decide)⟩

/-- C10: the loader's `CASE WHEN is_current THEN 1 ELSE 0` transform maps
every source flag that is not boolean TRUE — including NULL — to 0, so every
loaded groups row has `is_current ∈ {0, 1}`, and a NULL source flag is
indistinguishable from FALSE after loading. -/
theorem groups_is_current_normalized (src : List SourceGroupRow)
    (r : SourceGroupRow) (gid : Option Int) (nm ab : Option String) :
    (∀ g ∈ loadGroups src, g.is_current = 0 ∨ g.is_current = 1)
    ∧ ((loadGroupRow r).is_current = 1 ↔ r.is_current = some true)
    ∧ (r.is_current ≠ some true → (loadGroupRow r).is_current = 0)
    ∧ loadGroupRow (SourceGroupRow.mk gid nm ab none)
        = loadGroupRow (SourceGroupRow.mk gid nm ab (some false)) := by
  refine ⟨?_, ?_, ?_, rfl⟩
  · intro g hg
    obtain ⟨r', _, rfl⟩ := List.mem_map.mp hg
    unfold loadGroupRow
    by_cases h : r'.is_current = some true
    · right; simp [h]
    · left; simp [h]
  · unfold loadGroupRow
    by_cases h : r.is_current = some true
    · simp [h]
    · simp [h]
  · intro h
    unfold loadGroupRow
    simp [h]

/-- Witness for C10 at a concrete source table containing TRUE, FALSE and
NULL flags. -/
theorem groups_is_current_normalized_witness :
    (∀ g ∈ loadGroups
        [SourceGroupRow.mk (some 1) none none (some true),
         SourceGroupRow.mk (some 2) none none (some false),
         SourceGroupRow.mk (some 3) none none none],
      g.is_current = 0 ∨ g.is_current = 1)
    ∧ ((loadGroupRow (SourceGroupRow.mk (some 3) none none none)).is_current = 1
        ↔ (SourceGroupRow.mk (some 3) none none none).is_current = some true)
    ∧ ((SourceGroupRow.mk (some 3) none none none).is_current ≠ some true →
        (loadGroupRow (SourceGroupRow.mk (some 3) none none none)).is_current = 0)
    ∧ loadGroupRow (SourceGroupRow.mk (some 3) none none none)
        = loadGroupRow (SourceGroupRow.mk (some 3) none none (some false)) :=
  groups_is_current_normalized
    [SourceGroupRow.mk (some 1) none none (some true),
     SourceGroupRow.mk (some 2) none none (some false),
     SourceGroupRow.mk (some 3) none none none]
    (SourceGroupRow.mk (some 3) none none none) (some 3) none none

/-! ## Character-list lemmas for the schema rewriter (C7 machinery) -/

theorem hasPre_append_of_le (p a b : List Char) (h : p.length ≤ a.length) :
    hasPre p (a ++ b) = hasPre p a := by
  induction p generalizing a with
  | nil => simp [hasPre]
  | cons x xs ih =>
    cases a with
    | nil => simp at h
    | cons c cs =>
      show (x == c && hasPre xs (cs ++ b)) = (x == c && hasPre xs cs)
      rw [ih cs (by simpa using h)]

theorem hasPre_mono_append {p a : List Char} (b : List Char)
    (h : hasPre p a = true) : hasPre p (a ++ b) = true := by
  induction p generalizing a with
  | nil => simp [hasPre]
  | cons x xs ih =>
    cases a with
    | nil => simp [hasPre] at h
    | cons c cs =>
      simp only [hasPre, Bool.and_eq_true] at h
      simp only [List.cons_append, hasPre, Bool.and_eq_true]
      exact ⟨h.1, ih h.2⟩

theorem hasPre_take {p l : List Char} (h : hasPre p l = true) :
    l.take p.length = p := by
  induction p generalizing l with
  | nil => simp
  | cons x xs ih =>
    cases l with
    | nil => simp [hasPre] at h
    | cons c cs =>
      simp only [hasPre, Bool.and_eq_true, beq_iff_eq] at h
      simp only [List.length_cons, List.take_succ_cons]
      rw [ih h.2, h.1]

theorem hasPre_self_append (p b : List Char) : hasPre p (p ++ b) = true := by
  induction p with
  | nil => simp [hasPre]
  | cons c cs ih => simp [hasPre, ih]

theorem occursIn_of_hasPre {p l : List Char} (h : hasPre p l = true) :
    occursIn p l = true := by
  cases l with
  | nil =>
    cases p with
    | nil => rfl
    | cons x xs => simp [hasPre] at h
  | cons c cs => simp [occursIn, h]

/-! Equation lemmas for the fuel-driven `stripINE`. -/

theorem stripINEAux_nil (fuel : Nat) : stripINEAux fuel [] = [] := by
  cases fuel <;> rfl

theorem stripINEAux_fuel_irrel :
    ∀ fuel fuel' (l : List Char), l.length ≤ fuel → l.length ≤ fuel' →
      stripINEAux fuel l = stripINEAux fuel' l := by
  intro fuel
  induction fuel with
  | zero =>
    intro fuel' l h _
    have : l = [] := List.length_eq_zero.mp (Nat.le_zero.mp h)
    subst this
    rw [stripINEAux_nil, stripINEAux_nil]
  | succ fuel ih =>
    intro fuel' l h h'
    cases l with
    | nil => rw [stripINEAux_nil, stripINEAux_nil]
    | cons c cs =>
      cases fuel' with
      | zero => simp at h'
      | succ fuel' =>
        show (if hasPre ineChars (c :: cs) then
            stripINEAux fuel ((c :: cs).drop ineChars.length)
          else c :: stripINEAux fuel cs) = (if hasPre ineChars (c :: cs) then
            stripINEAux fuel' ((c :: cs).drop ineChars.length)
          else c :: stripINEAux fuel' cs)
        by_cases hp : hasPre ineChars (c :: cs)
        · rw [if_pos hp, if_pos hp]
          apply ih
          · simp only [List.length_drop, List.length_cons]
            have h14 : ineChars.length = 14 := rfl
            simp only [List.length_cons] at h
            omega
          · simp only [List.length_drop, List.length_cons]
            have h14 : ineChars.length = 14 := rfl
            simp only [List.length_cons] at h'
            omega
        · rw [if_neg hp, if_neg hp]
          have := ih fuel' cs (by simp only [List.length_cons] at h; omega)
            (by simp only [List.length_cons] at h'; omega)
          rw [this]

theorem stripINE_cons (c : Char) (cs : List Char) :
    stripINE (c :: cs)
      = if hasPre ineChars (c :: cs) then stripINE ((c :: cs).drop ineChars.length)
        else c :: stripINE cs := by
  show stripINEAux (c :: cs).length (c :: cs) = _
  rw [show stripINEAux (c :: cs).length (c :: cs)
      = (if hasPre ineChars (c :: cs) then
          stripINEAux cs.length ((c :: cs).drop ineChars.length)
        else c :: stripINEAux cs.length cs) from rfl]
  by_cases hp : hasPre ineChars (c :: cs)
  · rw [if_pos hp, if_pos hp]
    apply stripINEAux_fuel_irrel
    · simp only [List.length_drop, List.length_cons]
      have h14 : ineChars.length = 14 := rfl
      rw [h14]
      omega
    · exact Nat.le_refl _
  · rw [if_neg hp, if_neg hp]
    rfl

theorem stripINE_no_occur : ∀ {l : List Char},
    occursIn ineChars l = false → stripINE l = l := by
  intro l
  induction l with
  | nil => intro _; rfl
  | cons c cs ih =>
    intro h
    simp only [occursIn, Bool.or_eq_false_iff] at h
    rw [stripINE_cons, if_neg (by simp [h.1])]
    rw [ih h.2]

theorem stripINE_eat (b : List Char) :
    stripINE (ineChars ++ b) = stripINE b := by
  have hcons : ineChars ++ b = ' ' :: ("IF NOT EXISTS".toList ++ b) := rfl
  rw [hcons, stripINE_cons]
  have hp : hasPre ineChars (' ' :: ("IF NOT EXISTS".toList ++ b)) = true := by
    rw [← hcons]
    exact hasPre_self_append _ _
  rw [if_pos hp]
  congr 1

/-- The qualifier " IF NOT EXISTS" has no non-trivial border: no proper
prefix of it is also a suffix, so an occurrence can never overlap a copy of
the qualifier itself. -/
theorem ineChars_no_border :
    ∀ d, 1 ≤ d → d ≤ 13 → ineChars.drop d ≠ ineChars.take (14 - d) := by decide

/-- If the qualifier matches across the boundary of `a ++ ineChars ++ b`
with `a` non-empty, it must already occur in `a ++ b`. -/
theorem hasPre_overlap {a b : List Char}
    (hpre : hasPre ineChars (a ++ ineChars ++ b) = true) (hne : a ≠ []) :
    occursIn ineChars (a ++ b) = true := by
  by_cases hlen : 14 ≤ a.length
  · have h14 : ineChars.length = 14 := rfl
    rw [List.append_assoc, hasPre_append_of_le _ _ _ (by omega)] at hpre
    exact occursIn_of_hasPre (hasPre_mono_append b hpre)
  · exfalso
    have hd1 : 1 ≤ a.length := by
      cases a with
      | nil => exact absurd rfl hne
      | cons x xs => simp
    have hd13 : a.length ≤ 13 := by omega
    have htake := hasPre_take hpre
    have h14 : ineChars.length = 14 := rfl
    rw [h14] at htake
    rw [List.append_assoc, List.take_append_eq_append_take,
      List.take_of_length_le (by omega),
      List.take_append_of_le_length (by rw [h14]; omega)] at htake
    have hdrop := congrArg (List.drop a.length) htake
    rw [List.drop_left] at hdrop
    exact ineChars_no_border a.length hd1 hd13 hdrop.symm

/-- Removing a lone qualifier occurrence: when the qualifier occurs nowhere
in `a ++ b` (in particular not spanning the seam), `str.replace` deletes
exactly the explicit occurrence. -/
theorem stripINE_single : ∀ (a b : List Char),
    occursIn ineChars (a ++ b) = false → stripINE (a ++ ineChars ++ b) = a ++ b := by
  intro a
  induction a with
  | nil =>
    intro b h
    simp only [List.nil_append] at h ⊢
    rw [stripINE_eat, stripINE_no_occur h]
  | cons c a' ih =>
    intro b h
    have hrw : (c :: a') ++ ineChars ++ b = c :: (a' ++ ineChars ++ b) := by
      simp
    rw [hrw, stripINE_cons]
    have hnp : ¬ hasPre ineChars (c :: (a' ++ ineChars ++ b)) = true := by
      intro hp
      rw [← hrw] at hp
      have hocc := hasPre_overlap hp (by simp)
      rw [hocc] at h
      cases h
    rw [if_neg hnp]
    have h' : occursIn ineChars (a' ++ b) = false := by
      have hco : (c :: a') ++ b = c :: (a' ++ b) := by simp
      rw [hco] at h
      simp only [occursIn, Bool.or_eq_false_iff] at h
      exact h.2
    rw [ih b h']
    simp

/-! ## Schema rewriting: line shapes and DROP/CREATE adjacency -/

/-- The anchored regex parse succeeds on every CREATE line of the input
(true of all `.schema` output shapes the loop is fed). -/
def extractOk (clean : List Char) : Prop :=
  (hasPre ctKw clean = true → (extractName (clean.drop 12) true).isSome = true)
  ∧ (hasPre cuiKw clean = true → (extractName (clean.drop 19) false).isSome = true)
  ∧ (hasPre ciKw clean = true → (extractName (clean.drop 12) false).isSome = true)

instance extractOk.instDecidable (clean : List Char) : Decidable (extractOk clean) := by
  unfold extractOk
  exact inferInstance

theorem startsCreate_dropTable (n : List Char) :
    startsCreate (dropTableFor n) = false := by
  unfold startsCreate dropTableFor
  rw [List.append_assoc, hasPre_append_of_le _ _ _ (by decide),
    hasPre_append_of_le _ _ _ (by decide), hasPre_append_of_le _ _ _ (by decide)]
  decide

theorem startsCreate_dropIndex (n : List Char) :
    startsCreate (dropIndexFor n) = false := by
  unfold startsCreate dropIndexFor
  rw [List.append_assoc, hasPre_append_of_le _ _ _ (by decide),
    hasPre_append_of_le _ _ _ (by decide), hasPre_append_of_le _ _ _ (by decide)]
  decide

/-- Every output block of `rewriteLine` is either a DROP line followed by
its CREATE line, or a single non-CREATE line. -/
theorem rewriteLine_shape (l : List Char) (hx : extractOk (stripINE l)) :
    (∃ d c, rewriteLine l = [d, c] ∧ startsCreate d = false
      ∧ startsCreate c = true ∧ dropFor c = some d)
    ∨ (∃ c, rewriteLine l = [c] ∧ startsCreate c = false) := by
  by_cases h1 : hasPre ctKw (stripINE l) = true
  · obtain ⟨n, hn⟩ := Option.isSome_iff_exists.mp (hx.1 h1)
    left
    refine ⟨dropTableFor n, stripINE l, ?_, startsCreate_dropTable n, ?_, ?_⟩
    · simp only [rewriteLine]
      rw [if_pos h1, hn]
    · simp [startsCreate, h1]
    · unfold dropFor
      rw [if_pos h1, hn]
      rfl
  · by_cases h2 : hasPre cuiKw (stripINE l) = true
    · obtain ⟨n, hn⟩ := Option.isSome_iff_exists.mp (hx.2.1 h2)
      left
      refine ⟨dropIndexFor n, stripINE l, ?_, startsCreate_dropIndex n, ?_, ?_⟩
      · simp only [rewriteLine]
        rw [if_neg h1, if_pos h2, hn]
      · simp [startsCreate, h2]
      · unfold dropFor
        rw [if_neg h1, if_pos h2, hn]
        rfl
    · by_cases h3 : hasPre ciKw (stripINE l) = true
      · obtain ⟨n, hn⟩ := Option.isSome_iff_exists.mp (hx.2.2 h3)
        left
        refine ⟨dropIndexFor n, stripINE l, ?_, startsCreate_dropIndex n, ?_, ?_⟩
        · simp only [rewriteLine]
          rw [if_neg h1, if_neg h2, if_pos h3, hn]
        · simp [startsCreate, h3]
        · unfold dropFor
          rw [if_neg h1, if_neg h2, if_pos h3, hn]
          rfl
      · right
        refine ⟨stripINE l, ?_, ?_⟩
        · simp only [rewriteLine]
          rw [if_neg h1, if_neg h2, if_neg h3]
        · simp [startsCreate, h1, h2, h3]

theorem rewriteSchema_nil : rewriteSchema [] = [] := rfl

theorem rewriteSchema_cons (l : List Char) (ls : List (List Char)) :
    rewriteSchema (l :: ls) = rewriteLine l ++ rewriteSchema ls := by
  simp [rewriteSchema]

/-- Inside the rewritten schema, every line starting with one of the three
CREATE prefixes is immediately preceded by the matching DROP line. -/
theorem rewriteSchema_adjacency (lines : List (List Char))
    (hx : ∀ l ∈ lines, extractOk (stripINE l)) :
    ∀ j, j < (rewriteSchema lines).length →
      startsCreate ((rewriteSchema lines).getD j []) = true →
      0 < j ∧ dropFor ((rewriteSchema lines).getD j [])
          = some ((rewriteSchema lines).getD (j - 1) []) := by
  induction lines with
  | nil =>
    intro j hj
    rw [rewriteSchema_nil] at hj
    simp at hj
  | cons l ls ih =>
    have ih' := ih (fun m hm => hx m (List.mem_cons_of_mem _ hm))
    rcases rewriteLine_shape l (hx l (List.mem_cons_self _ _)) with
      ⟨d, c, hb, hd, hc, hdf⟩ | ⟨c, hb, hc⟩
    · intro j hj hcr
      rw [rewriteSchema_cons, hb] at hj hcr ⊢
      match j, hj, hcr with
      | 0, hj, hcr =>
        exfalso
        simp only [List.cons_append, List.nil_append, List.getD_cons_zero] at hcr
        rw [hcr] at hd
        cases hd
      | 1, hj, hcr =>
        refine ⟨Nat.zero_lt_one, ?_⟩
        simp only [List.cons_append, List.nil_append, List.getD_cons_succ,
          List.getD_cons_zero]
        exact hdf
      | (i+2), hj, hcr =>
        have hlen : i < (rewriteSchema ls).length := by
          simp only [List.cons_append, List.nil_append, List.length_cons] at hj
          omega
        simp only [List.cons_append, List.nil_append, List.getD_cons_succ] at hcr
        obtain ⟨hipos, hprev⟩ := ih' i hlen hcr
        obtain ⟨m, rfl⟩ : ∃ m, i = m + 1 := ⟨i - 1, by omega⟩
        refine ⟨Nat.succ_pos _, ?_⟩
        simpa using hprev
    · intro j hj hcr
      rw [rewriteSchema_cons, hb] at hj hcr ⊢
      match j, hj, hcr with
      | 0, hj, hcr =>
        exfalso
        simp only [List.singleton_append, List.getD_cons_zero] at hcr
        rw [hcr] at hc
        cases hc
      | (i+1), hj, hcr =>
        have hlen : i < (rewriteSchema ls).length := by
          simp only [List.singleton_append, List.length_cons] at hj
          omega
        simp only [List.singleton_append, List.getD_cons_succ] at hcr
        obtain ⟨hipos, hprev⟩ := ih' i hlen hcr
        obtain ⟨m, rfl⟩ : ∃ m, i = m + 1 := ⟨i - 1, by omega⟩
        refine ⟨Nat.succ_pos _, ?_⟩
        simpa using hprev

/-- Case analysis on the value of `rewriteLine`. -/
theorem rewriteLine_sub (l : List Char) :
    (∃ n, rewriteLine l = [dropTableFor n, stripINE l])
    ∨ (∃ n, rewriteLine l = [dropIndexFor n, stripINE l])
    ∨ rewriteLine l = [stripINE l] := by
  simp only [rewriteLine]
  by_cases h1 : hasPre ctKw (stripINE l) = true
  · rw [if_pos h1]
    cases hn : extractName ((stripINE l).drop 12) true with
    | some n => exact Or.inl ⟨n, rfl⟩
    | none => exact Or.inr (Or.inr rfl)
  · rw [if_neg h1]
    by_cases h2 : hasPre cuiKw (stripINE l) = true
    · rw [if_pos h2]
      cases hn : extractName ((stripINE l).drop 19) false with
      | some n => exact Or.inr (Or.inl ⟨n, rfl⟩)
      | none => exact Or.inr (Or.inr rfl)
    · rw [if_neg h2]
      by_cases h3 : hasPre ciKw (stripINE l) = true
      · rw [if_pos h3]
        cases hn : extractName ((stripINE l).drop 12) false with
        | some n => exact Or.inr (Or.inl ⟨n, rfl⟩)
        | none => exact Or.inr (Or.inr rfl)
      · rw [if_neg h3]
        exact Or.inr (Or.inr rfl)

theorem rewriteLine_members {l o : List Char} (ho : o ∈ rewriteLine l) :
    (∃ n, o = dropTableFor n ∨ o = dropIndexFor n) ∨ o = stripINE l := by
  rcases rewriteLine_sub l with ⟨n, hb⟩ | ⟨n, hb⟩ | hb <;> rw [hb] at ho
  · rcases List.mem_cons.mp ho with rfl | ho
    · exact Or.inl ⟨n, Or.inl rfl⟩
    · exact Or.inr (by simpa using ho)
  · rcases List.mem_cons.mp ho with rfl | ho
    · exact Or.inl ⟨n, Or.inr rfl⟩
    · exact Or.inr (by simpa using ho)
  · exact Or.inr (by simpa using ho)

/-- C7: in the rewritten schema dump, every line beginning with
`CREATE TABLE `, `CREATE UNIQUE INDEX ` or `CREATE INDEX ` is immediately
preceded by the corresponding `DROP TABLE IF EXISTS`/`DROP INDEX IF EXISTS`
line carrying the extracted declared name; every output line is either such
a DROP line or an input line with its `" IF NOT EXISTS"` qualifiers removed
(a qualifier-free line passes through unchanged, and a lone qualifier is
deleted exactly); and the name extraction accepts both quoted and unquoted
declared names, yielding the same name. -/
theorem schema_rewrite_correct (lines : List (List Char))
    (hx : ∀ l ∈ lines, extractOk (stripINE l)) :
    (∀ j, j < (rewriteSchema lines).length →
        startsCreate ((rewriteSchema lines).getD j []) = true →
        0 < j ∧ dropFor ((rewriteSchema lines).getD j [])
            = some ((rewriteSchema lines).getD (j - 1) []))
    ∧ (∀ o ∈ rewriteSchema lines,
        (∃ n, o = dropTableFor n ∨ o = dropIndexFor n)
          ∨ ∃ l ∈ lines, o = stripINE l)
    ∧ (∀ l : List Char, occursIn ineChars l = false → stripINE l = l)
    ∧ (∀ a b : List Char, occursIn ineChars (a ++ b) = false →
        stripINE (a ++ ineChars ++ b) = a ++ b)
    ∧ extractName " groups(".toList true = some "groups".toList
    ∧ extractName " \x22groups\x22 (".toList true = some "groups".toList
    ∧ extractName " idx_groups_abbr ON groups(abbr);".toList false
        = some "idx_groups_abbr".toList
    ∧ extractName " \x22idx_groups_abbr\x22 ON groups(abbr);".toList false
        = some "idx_groups_abbr".toList := by
  refine ⟨rewriteSchema_adjacency lines hx, ?_,
    fun l h => stripINE_no_occur h, stripINE_single, by decide, by decide,
    by decide, by decide⟩
  intro o ho
  obtain ⟨l, hl, hol⟩ := List.mem_flatMap.mp ho
  rcases rewriteLine_members hol with h | h
  · exact Or.inl h
  · exact Or.inr ⟨l, hl, h⟩

/-- Witness for C7 on a small concrete schema dump containing all three
CREATE forms, an `IF NOT EXISTS` qualifier, a quoted name and a non-CREATE
line. -/
theorem schema_rewrite_correct_witness :
    (∀ l ∈ ["CREATE TABLE IF NOT EXISTS groups(id);".toList,
        "CREATE INDEX idx_groups_abbr ON groups(abbr);".toList,
        "CREATE UNIQUE INDEX \x22u1\x22 ON t(a);".toList,
        "PRAGMA user_version = 1;".toList], extractOk (stripINE l))
    ∧ ((∀ j, j < (rewriteSchema ["CREATE TABLE IF NOT EXISTS groups(id);".toList,
          "CREATE INDEX idx_groups_abbr ON groups(abbr);".toList,
          "CREATE UNIQUE INDEX \x22u1\x22 ON t(a);".toList,
          "PRAGMA user_version = 1;".toList]).length →
        startsCreate ((rewriteSchema ["CREATE TABLE IF NOT EXISTS groups(id);".toList,
          "CREATE INDEX idx_groups_abbr ON groups(abbr);".toList,
          "CREATE UNIQUE INDEX \x22u1\x22 ON t(a);".toList,
          "PRAGMA user_version = 1;".toList]).getD j []) = true →
        0 < j ∧ dropFor ((rewriteSchema ["CREATE TABLE IF NOT EXISTS groups(id);".toList,
          "CREATE INDEX idx_groups_abbr ON groups(abbr);".toList,
          "CREATE UNIQUE INDEX \x22u1\x22 ON t(a);".toList,
          "PRAGMA user_version = 1;".toList]).getD j [])
            = some ((rewriteSchema ["CREATE TABLE IF NOT EXISTS groups(id);".toList,
          "CREATE INDEX idx_groups_abbr ON groups(abbr);".toList,
          "CREATE UNIQUE INDEX \x22u1\x22 ON t(a);".toList,
          "PRAGMA user_version = 1;".toList]).getD (j - 1) []))
      ∧ (∀ o ∈ rewriteSchema ["CREATE TABLE IF NOT EXISTS groups(id);".toList,
          "CREATE INDEX idx_groups_abbr ON groups(abbr);".toList,
          "CREATE UNIQUE INDEX \x22u1\x22 ON t(a);".toList,
          "PRAGMA user_version = 1;".toList],
          (∃ n, o = dropTableFor n ∨ o = dropIndexFor n)
            ∨ ∃ l ∈ ["CREATE TABLE IF NOT EXISTS groups(id);".toList,
                "CREATE INDEX idx_groups_abbr ON groups(abbr);".toList,
                "CREATE UNIQUE INDEX \x22u1\x22 ON t(a);".toList,
                "PRAGMA user_version = 1;".toList], o = stripINE l)
      ∧ (∀ l : List Char, occursIn ineChars l = false → stripINE l = l)
      ∧ (∀ a b : List Char, occursIn ineChars (a ++ b) = false →
          stripINE (a ++ ineChars ++ b) = a ++ b)
      ∧ extractName " groups(".toList true = some "groups".toList
      ∧ extractName " \x22groups\x22 (".toList true = some "groups".toList
      ∧ extractName " idx_groups_abbr ON groups(abbr);".toList false
          = some "idx_groups_abbr".toList
      ∧ extractName " \x22idx_groups_abbr\x22 ON groups(abbr);".toList false
          = some "idx_groups_abbr".toList) :=
  ⟨by decide, schema_rewrite_correct _ (by decide)⟩

/-! ## Transaction bracketing of the generated files (C8 machinery) -/

theorem str_ne_of_len {a b : String} (h : a.length ≠ b.length) : a ≠ b :=
  fun e => h (congrArg String.length e)

theorem dropWhile_bne_append {x : String} :
    ∀ (a b : List String), x ∉ a →
      (a ++ x :: b).dropWhile (fun l => l != x) = x :: b := by
  intro a
  induction a with
  | nil =>
    intro b _
    simp [List.dropWhile_cons]
  | cons c a' ih =>
    intro b h
    have hc : (c != x) = true := by
      have : ¬x = c := fun e => h (e ▸ List.mem_cons_self x a')
      simp [bne]
      exact fun e => this e.symm
    simp only [List.cons_append, List.dropWhile_cons, hc, if_true]
    exact ih b (fun hm => h (List.mem_cons_of_mem _ hm))

theorem takeWhile_bne_append {x : String} :
    ∀ (a b : List String), x ∉ a →
      (a ++ x :: b).takeWhile (fun l => l != x) = a := by
  intro a
  induction a with
  | nil =>
    intro b _
    simp [List.takeWhile_cons]
  | cons c a' ih =>
    intro b h
    have hc : (c != x) = true := by
      have : ¬x = c := fun e => h (e ▸ List.mem_cons_self x a')
      simp [bne]
      exact fun e => this e.symm
    simp only [List.cons_append, List.takeWhile_cons, hc, if_true]
    rw [ih b (fun hm => h (List.mem_cons_of_mem _ hm))]

theorem count_one_structure {x : String} (a b : List String)
    (ha : x ∉ a) (hb : x ∉ b) : (a ++ x :: b).count x = 1 := by
  rw [List.count_append, List.count_cons_self,
    List.count_eq_zero.mpr ha, List.count_eq_zero.mpr hb]

/-- C8 corrected: `dump_groups.sql`/`dump_products.sql` run staging
creation, the staged inserts, the whole merge and the final staging drop
between a single `BEGIN;`/`COMMIT;` pair, with the
`PRAGMA foreign_keys=OFF;` emitted before the `BEGIN;` of the same file,
and the staging table dropped before it is created and dropped again before
the `COMMIT;`.  The skus pipeline differs: `dump_skus_merge.sql` wraps the
merge and the staging drop in a single `BEGIN;`/`COMMIT;` pair but carries
no PRAGMA line at all — the PRAGMA is emitted only in
`dump_skus_setup.sql`, a separate invocation. -/
theorem merge_file_transactions
    (tableName keyColumn : String) (columns payload skuColumns : List String)
    (hp1 : "BEGIN;" ∉ payload) (hp2 : "COMMIT;" ∉ payload)
    (hm1 : "BEGIN;" ∉ buildMergeSqlLines tableName keyColumn columns)
    (hm2 : "COMMIT;" ∉ buildMergeSqlLines tableName keyColumn columns)
    (hs1 : "BEGIN;" ∉ buildMergeSqlLines "skus" "sku_id" skuColumns)
    (hs2 : "COMMIT;" ∉ buildMergeSqlLines "skus" "sku_id" skuColumns)
    (hs3 : "PRAGMA foreign_keys=OFF;" ∉ buildMergeSqlLines "skus" "sku_id" skuColumns) :
    ("PRAGMA foreign_keys=OFF;"
        ∈ (incrementalDumpFileLines tableName keyColumn columns payload).takeWhile
            (fun l => l != "BEGIN;")
      ∧ betweenBeginCommit (incrementalDumpFileLines tableName keyColumn columns payload)
          = ["DROP TABLE IF EXISTS staging_" ++ tableName ++ ";",
             "CREATE TABLE staging_" ++ tableName ++ " AS SELECT * FROM "
               ++ tableName ++ " WHERE 0;"]
            ++ payload ++ buildMergeSqlLines tableName keyColumn columns
            ++ ["DROP TABLE IF EXISTS staging_" ++ tableName ++ ";"]
      ∧ (incrementalDumpFileLines tableName keyColumn columns payload).count "BEGIN;" = 1
      ∧ (incrementalDumpFileLines tableName keyColumn columns payload).count "COMMIT;" = 1)
    ∧ (betweenBeginCommit (skusMergeFileLines skuColumns)
          = buildMergeSqlLines "skus" "sku_id" skuColumns
            ++ ["DROP TABLE IF EXISTS staging_skus;"]
      ∧ (skusMergeFileLines skuColumns).count "BEGIN;" = 1
      ∧ (skusMergeFileLines skuColumns).count "COMMIT;" = 1
      ∧ "PRAGMA foreign_keys=OFF;" ∉ skusMergeFileLines skuColumns
      ∧ "PRAGMA foreign_keys=OFF;" ∈ skusSetupFileLines
      ∧ "BEGIN;" ∉ skusSetupFileLines) := by
  -- length facts for the table-dependent lines
  have lc0 : ("-- Incremental sync for " ++ tableName).length
      = 24 + tableName.length := by
    have h1 : ("-- Incremental sync for " : String).length = 24 := rfl
    rw [String.length_append, h1]
  have ldrop : ("DROP TABLE IF EXISTS staging_" ++ tableName ++ ";").length
      = 30 + tableName.length := by
    have h1 : ("DROP TABLE IF EXISTS staging_" : String).length = 29 := rfl
    have h2 : (";" : String).length = 1 := rfl
    rw [String.length_append, String.length_append, h1, h2]
    omega
  have lcreate : ("CREATE TABLE staging_" ++ tableName ++ " AS SELECT * FROM "
      ++ tableName ++ " WHERE 0;").length = 48 + tableName.length + tableName.length := by
    have h1 : ("CREATE TABLE staging_" : String).length = 21 := rfl
    have h2 : (" AS SELECT * FROM " : String).length = 18 := rfl
    have h3 : (" WHERE 0;" : String).length = 9 := rfl
    rw [String.length_append, String.length_append, String.length_append,
      String.length_append, h1, h2, h3]
    omega
  have lB : ("BEGIN;" : String).length = 6 := rfl
  have lC : ("COMMIT;" : String).length = 7 := rfl
  have hBc0 : ("BEGIN;" : String) ≠ "-- Incremental sync for " ++ tableName :=
    str_ne_of_len (by rw [lB, lc0]; omega)
  have hBdrop : ("BEGIN;" : String) ≠ "DROP TABLE IF EXISTS staging_" ++ tableName ++ ";" :=
    str_ne_of_len (by rw [lB, ldrop]; omega)
  have hBcreate : ("BEGIN;" : String) ≠ "CREATE TABLE staging_" ++ tableName
      ++ " AS SELECT * FROM " ++ tableName ++ " WHERE 0;" :=
    str_ne_of_len (by rw [lB, lcreate]; omega)
  have hCc0 : ("COMMIT;" : String) ≠ "-- Incremental sync for " ++ tableName :=
    str_ne_of_len (by rw [lC, lc0]; omega)
  have hCdrop : ("COMMIT;" : String) ≠ "DROP TABLE IF EXISTS staging_" ++ tableName ++ ";" :=
    str_ne_of_len (by rw [lC, ldrop]; omega)
  have hCcreate : ("COMMIT;" : String) ≠ "CREATE TABLE staging_" ++ tableName
      ++ " AS SELECT * FROM " ++ tableName ++ " WHERE 0;" :=
    str_ne_of_len (by rw [lC, lcreate]; omega)
  -- reshape the incremental file around its BEGIN and COMMIT
  have hfile1 : incrementalDumpFileLines tableName keyColumn columns payload
      = ["-- Incremental sync for " ++ tableName, "PRAGMA foreign_keys=OFF;"]
        ++ "BEGIN;" ::
          (["DROP TABLE IF EXISTS staging_" ++ tableName ++ ";",
            "CREATE TABLE staging_" ++ tableName ++ " AS SELECT * FROM "
              ++ tableName ++ " WHERE 0;"]
            ++ payload ++ buildMergeSqlLines tableName keyColumn columns
            ++ ["DROP TABLE IF EXISTS staging_" ++ tableName ++ ";"]
            ++ "COMMIT;" :: [""]) := by
    simp [incrementalDumpFileLines]
  have hBnotinA : ("BEGIN;" : String)
      ∉ ["-- Incremental sync for " ++ tableName, "PRAGMA foreign_keys=OFF;"] := by
    simp [hBc0]
  have hCnotinMid : ("COMMIT;" : String)
      ∉ ["DROP TABLE IF EXISTS staging_" ++ tableName ++ ";",
          "CREATE TABLE staging_" ++ tableName ++ " AS SELECT * FROM "
            ++ tableName ++ " WHERE 0;"]
          ++ payload ++ buildMergeSqlLines tableName keyColumn columns
          ++ ["DROP TABLE IF EXISTS staging_" ++ tableName ++ ";"] := by
    simp [hCdrop, hCcreate, hp2, hm2]
  have htake : (incrementalDumpFileLines tableName keyColumn columns payload).takeWhile
      (fun l => l != "BEGIN;")
        = ["-- Incremental sync for " ++ tableName, "PRAGMA foreign_keys=OFF;"] := by
    rw [hfile1]
    exact takeWhile_bne_append _ _ hBnotinA
  have hdropw : (incrementalDumpFileLines tableName keyColumn columns payload).dropWhile
      (fun l => l != "BEGIN;")
        = "BEGIN;" ::
          (["DROP TABLE IF EXISTS staging_" ++ tableName ++ ";",
            "CREATE TABLE staging_" ++ tableName ++ " AS SELECT * FROM "
              ++ tableName ++ " WHERE 0;"]
            ++ payload ++ buildMergeSqlLines tableName keyColumn columns
            ++ ["DROP TABLE IF EXISTS staging_" ++ tableName ++ ";"]
            ++ "COMMIT;" :: [""]) := by
    rw [hfile1]
    exact dropWhile_bne_append _ _ hBnotinA
  refine ⟨⟨?_, ?_, ?_, ?_⟩, ?_, ?_, ?_, ?_, ?_, ?_⟩
  · rw [htake]
    simp
  · unfold betweenBeginCommit
    rw [hdropw]
    simp only [List.drop_succ_cons, List.drop_zero]
    rw [show (["DROP TABLE IF EXISTS staging_" ++ tableName ++ ";",
        "CREATE TABLE staging_" ++ tableName ++ " AS SELECT * FROM "
          ++ tableName ++ " WHERE 0;"]
        ++ payload ++ buildMergeSqlLines tableName keyColumn columns
        ++ ["DROP TABLE IF EXISTS staging_" ++ tableName ++ ";"]
        ++ "COMMIT;" :: [""])
      = (["DROP TABLE IF EXISTS staging_" ++ tableName ++ ";",
        "CREATE TABLE staging_" ++ tableName ++ " AS SELECT * FROM "
          ++ tableName ++ " WHERE 0;"]
        ++ payload ++ buildMergeSqlLines tableName keyColumn columns
        ++ ["DROP TABLE IF EXISTS staging_" ++ tableName ++ ";"])
        ++ "COMMIT;" :: [""] from by simp]
    rw [takeWhile_bne_append _ _ hCnotinMid]
  · rw [hfile1]
    apply count_one_structure _ _ hBnotinA
    have hBC : ("BEGIN;" : String) ≠ "COMMIT;" := by decide
    have hBE : ("BEGIN;" : String) ≠ "" := by decide
    simp [hBdrop, hBcreate, hp1, hm1, hBC, hBE]
  · have hfile2 : incrementalDumpFileLines tableName keyColumn columns payload
        = (["-- Incremental sync for " ++ tableName, "PRAGMA foreign_keys=OFF;",
            "BEGIN;", "DROP TABLE IF EXISTS staging_" ++ tableName ++ ";",
            "CREATE TABLE staging_" ++ tableName ++ " AS SELECT * FROM "
              ++ tableName ++ " WHERE 0;"]
            ++ payload ++ buildMergeSqlLines tableName keyColumn columns
            ++ ["DROP TABLE IF EXISTS staging_" ++ tableName ++ ";"])
          ++ "COMMIT;" :: [""] := by
      simp [incrementalDumpFileLines]
    rw [hfile2]
    apply count_one_structure
    · have hCP : ("COMMIT;" : String) ≠ "PRAGMA foreign_keys=OFF;" := by decide
      have hCB : ("COMMIT;" : String) ≠ "BEGIN;" := by decide
      simp [hCc0, hCdrop, hCcreate, hp2, hm2, hCP, hCB]
    · simp
  · unfold betweenBeginCommit
    have hfile3 : skusMergeFileLines skuColumns
        = ["-- Merge staging SKUs into main table"]
          ++ "BEGIN;" ::
            ((buildMergeSqlLines "skus" "sku_id" skuColumns
              ++ ["DROP TABLE IF EXISTS staging_skus;"]) ++ "COMMIT;" :: [""]) := by
      simp [skusMergeFileLines]
    rw [hfile3, dropWhile_bne_append _ _ (by decide)]
    simp only [List.drop_succ_cons, List.drop_zero]
    apply takeWhile_bne_append
    have hCD : ("COMMIT;" : String) ≠ "DROP TABLE IF EXISTS staging_skus;" := by decide
    simp [hs2, hCD]
  · have hfile3 : skusMergeFileLines skuColumns
        = ["-- Merge staging SKUs into main table"]
          ++ "BEGIN;" ::
            (buildMergeSqlLines "skus" "sku_id" skuColumns
              ++ ["DROP TABLE IF EXISTS staging_skus;", "COMMIT;", ""]) := by
      simp [skusMergeFileLines]
    rw [hfile3]
    apply count_one_structure _ _ (by decide)
    have hBD : ("BEGIN;" : String) ≠ "DROP TABLE IF EXISTS staging_skus;" := by decide
    have hBC : ("BEGIN;" : String) ≠ "COMMIT;" := by decide
    have hBE : ("BEGIN;" : String) ≠ "" := by decide
    simp [hs1, hBD, hBC, hBE]
  · have hfile4 : skusMergeFileLines skuColumns
        = (["-- Merge staging SKUs into main table", "BEGIN;"]
            ++ buildMergeSqlLines "skus" "sku_id" skuColumns
            ++ ["DROP TABLE IF EXISTS staging_skus;"]) ++ "COMMIT;" :: [""] := by
      simp [skusMergeFileLines]
    rw [hfile4]
    apply count_one_structure
    · have hCM : ("COMMIT;" : String) ≠ "-- Merge staging SKUs into main table" := by
        decide
      have hCB : ("COMMIT;" : String) ≠ "BEGIN;" := by decide
      have hCD : ("COMMIT;" : String) ≠ "DROP TABLE IF EXISTS staging_skus;" := by
        decide
      simp [hs2, hCM, hCB, hCD]
    · simp
  · unfold skusMergeFileLines
    have hPM : ("PRAGMA foreign_keys=OFF;" : String)
        ≠ "-- Merge staging SKUs into main table" := by decide
    have hPB : ("PRAGMA foreign_keys=OFF;" : String) ≠ "BEGIN;" := by decide
    have hPD : ("PRAGMA foreign_keys=OFF;" : String)
        ≠ "DROP TABLE IF EXISTS staging_skus;" := by decide
    have hPC : ("PRAGMA foreign_keys=OFF;" : String) ≠ "COMMIT;" := by decide
    have hPE : ("PRAGMA foreign_keys=OFF;" : String) ≠ "" := by decide
    simp [hs3, hPM, hPB, hPD, hPC, hPE]
  · decide
  · decide

/-- C8 counterexample: the generated `dump_skus_merge.sql` — one of the
merge unit-of-work files — contains no `PRAGMA foreign_keys=OFF;` line at
all, refuting the claim that every merge unit-of-work file disables
foreign-key enforcement for its duration. -/
theorem skus_merge_file_lacks_pragma :
    "PRAGMA foreign_keys=OFF;" ∉ skusMergeFileLines
      ["sku_id", "product_id", "printing_id", "condition_id", "language_id"] := by
  decide

/-- Witness for the amended C8 at the concrete groups table and a
two-column skus table. -/
theorem merge_file_transactions_witness :
    (("BEGIN;" : String) ∉ ["INSERT INTO staging_groups VALUES(1,2);"]
      ∧ ("COMMIT;" : String) ∉ ["INSERT INTO staging_groups VALUES(1,2);"]
      ∧ ("BEGIN;" : String) ∉ buildMergeSqlLines "groups" "group_id" ["group_id", "name"]
      ∧ ("COMMIT;" : String) ∉ buildMergeSqlLines "groups" "group_id" ["group_id", "name"]
      ∧ ("BEGIN;" : String) ∉ buildMergeSqlLines "skus" "sku_id" ["sku_id", "product_id"]
      ∧ ("COMMIT;" : String) ∉ buildMergeSqlLines "skus" "sku_id" ["sku_id", "product_id"]
      ∧ ("PRAGMA foreign_keys=OFF;" : String)
          ∉ buildMergeSqlLines "skus" "sku_id" ["sku_id", "product_id"])
    ∧ ((("PRAGMA foreign_keys=OFF;"
        ∈ (incrementalDumpFileLines "groups" "group_id" ["group_id", "name"]
            ["INSERT INTO staging_groups VALUES(1,2);"]).takeWhile
            (fun l => l != "BEGIN;")
      ∧ betweenBeginCommit (incrementalDumpFileLines "groups" "group_id"
            ["group_id", "name"] ["INSERT INTO staging_groups VALUES(1,2);"])
          = ["DROP TABLE IF EXISTS staging_" ++ "groups" ++ ";",
             "CREATE TABLE staging_" ++ "groups" ++ " AS SELECT * FROM "
               ++ "groups" ++ " WHERE 0;"]
            ++ ["INSERT INTO staging_groups VALUES(1,2);"]
            ++ buildMergeSqlLines "groups" "group_id" ["group_id", "name"]
            ++ ["DROP TABLE IF EXISTS staging_" ++ "groups" ++ ";"]
      ∧ (incrementalDumpFileLines "groups" "group_id" ["group_id", "name"]
          ["INSERT INTO staging_groups VALUES(1,2);"]).count "BEGIN;" = 1
      ∧ (incrementalDumpFileLines "groups" "group_id" ["group_id", "name"]
          ["INSERT INTO staging_groups VALUES(1,2);"]).count "COMMIT;" = 1)
    ∧ (betweenBeginCommit (skusMergeFileLines ["sku_id", "product_id"])
          = buildMergeSqlLines "skus" "sku_id" ["sku_id", "product_id"]
            ++ ["DROP TABLE IF EXISTS staging_skus;"]
      ∧ (skusMergeFileLines ["sku_id", "product_id"]).count "BEGIN;" = 1
      ∧ (skusMergeFileLines ["sku_id", "product_id"]).count "COMMIT;" = 1
      ∧ "PRAGMA foreign_keys=OFF;" ∉ skusMergeFileLines ["sku_id", "product_id"]
      ∧ "PRAGMA foreign_keys=OFF;" ∈ skusSetupFileLines
      ∧ "BEGIN;" ∉ skusSetupFileLines))) :=
  ⟨⟨by decide, by decide, by decide, by decide, by decide, by decide, by decide⟩,
    merge_file_transactions "groups" "group_id" ["group_id", "name"]
      ["INSERT INTO staging_groups VALUES(1,2);"] ["sku_id", "product_id"]
      (by decide) (by decide) (by decide) (by decide) (by decide) (by decide)
      (by decide)⟩

end SyncR2D1
